import Mathlib

/-!
Shallow embedding of the MUI X data grid rows-meta feature, together with the
detail-panel toggle-column processor and the columns state-export processor,
and proofs of the behavioural properties stated about them.

Embedding conventions.
JavaScript objects used as string-keyed records are embedded as insertion
ordered association lists.  An assignment to a key updates the key slot in
place when the key is present and appends at the end otherwise, which is the
key-order semantics of JS objects.  Pixel heights are embedded as `Int`, and
`undefined` is embedded as `none` of an `Option`.   The ref cells of the
source hook become fields of an explicit state record that the operations
take and return; user supplied callbacks and registered pipe processors
become function fields of an environment record.
-/

/-- Value of the first pair carrying the given key in an association list
(`none` plays the role of JS `undefined`). -/
def Assoc.get {κ β : Type} [DecidableEq κ] : List (κ × β) → κ → Option β
  | [], _ => none
  | kv :: rest, k => if kv.1 = k then some kv.2 else Assoc.get rest k

/-- Assignment to a key: update the slots holding the key in place when the key
is present (JS objects are duplicate free, so this is the single slot), append
at the end otherwise. -/
def Assoc.set {κ β : Type} [DecidableEq κ] (l : List (κ × β)) (k : κ) (v : β) :
    List (κ × β) :=
  if (Assoc.get l k).isSome then
    l.map (fun kv => if kv.1 = k then (k, v) else kv)
  else
    l ++ [(k, v)]

/-- Key removal, the JS `delete obj[k]`. -/
def Assoc.eraseKey {κ β : Type} [DecidableEq κ] (l : List (κ × β)) (k : κ) :
    List (κ × β) :=
  l.filter (fun kv => !decide (kv.1 = k))

/-- Row identifier (`GridRowId`). -/
abbrev RowId := Nat

/-- The named height components of one row (`sizes`), a string-keyed record of
pixel values. -/
abbrev Sizes := List (String × Int)

/-- The test of the regular expression `base[A-Z]` used by the source on size
component names: the name starts with the four letters of `base` followed by an
ASCII uppercase letter. -/
def isBaseSize (key : String) : Bool :=
  match key.data with
  | 'b' :: 'a' :: 's' :: 'e' :: c :: _ => c.isUpper
  | _ => false

/-- The sub-record of the `base*`-named components of a sizes record, in order
(the source builds it by an order-preserving reduce over `Object.entries`). -/
def basePart (sizes : Sizes) : Sizes :=
  sizes.filter (fun kv => isBaseSize kv.1)

/-- The maximum of the `base*`-named components, accumulated from `0` exactly
as the source's `maximumBaseSize` reduce does. -/
def maxBaseSize (sizes : Sizes) : Int :=
  sizes.foldl
    (fun m kv => if isBaseSize kv.1 then (if kv.2 > m then kv.2 else m) else m) 0

/-- The sum of the non-`base*` components (`otherSizes` in the source). -/
def otherSizesSum (sizes : Sizes) : Int :=
  sizes.foldl (fun t kv => if isBaseSize kv.1 then t else t + kv.2) 0

/-- A row's total computed height: maximum of the `base*` components plus the
sum of the other components. -/
def totalRowHeight (sizes : Sizes) : Int :=
  maxBaseSize sizes + otherSizesSum sizes

/-- One entry of the row height cache `rowsHeightLookup`. -/
structure RowHeightEntry where
  isResized : Bool
  sizes : Sizes
  autoHeight : Bool
  needsFirstMeasurement : Bool
deriving DecidableEq

/-- The row height cache: row id to cache entry. -/
abbrev Lookup := List (RowId × RowHeightEntry)

/-- The `lastMeasuredRowIndex` watermark: a JS number that the source sets to
`Infinity` when every row is measured. -/
inductive Watermark : Type
  | val (index : Int)
  | inf
deriving DecidableEq

/-- The comparison `index > lastMeasuredRowIndex` of the source, for a
watermark that may hold `Infinity`. -/
def Watermark.ltIndex : Watermark → Int → Bool
  | Watermark.val j, index => decide (j < index)
  | Watermark.inf, _ => false

/-- The mutable state of the rows-meta feature: the height cache and the
`hasRowWithAutoHeight` / `lastMeasuredRowIndex` refs of the hook, plus the
`rowsMeta` slice (`positions`, `currentPageTotalHeight`) of the grid state. -/
structure MetaState where
  lookup : Lookup
  hasRowWithAutoHeight : Bool
  lastMeasuredRowIndex : Watermark
  positions : List Int
  currentPageTotalHeight : Int
deriving DecidableEq

/-- Result of the `getRowHeight` prop for one row: the string `auto`, a pixel
number, or `null` / `undefined`. -/
inductive RowHeightResult : Type
  | auto
  | value (v : Int)
  | nullish

/-- Result of the `getRowSpacing` prop: optional top and bottom spacing. -/
structure Spacing where
  top : Option Int
  bottom : Option Int

/-- Everything `hydrateRowsMeta` reads but does not write: the density derived
base row height, the three optional height callbacks of the props, the
registered `rowHeight` pipe processors in registration order, and the current
page's visible rows plus the pinned rows.  Callbacks are deterministic
functions of the row, the density factor being fixed it is absorbed into
them. -/
structure Env where
  rowHeightFromDensity : Int
  getRowHeightProp : Option (RowId → RowHeightResult)
  getEstimatedRowHeight : Option (RowId → Option Int)
  getRowSpacing : Option (RowId → Bool → Bool → Int → Spacing)
  processors : List (Sizes → RowId → Sizes)
  visibleRows : List RowId
  pinnedTop : List RowId
  pinnedBottom : List RowId

/-- Modelled from the spec: `getRowIndexRelativeToVisibleRows` (implemented by
a collaborator module that is not part of the given source) returns the index
of a row inside the current page's visible rows, `-1` when the row is not
visible, as JS `indexOf` does. -/
def rowIndexRelativeToVisibleRows (visible : List RowId) (id : RowId) : Int :=
  match visible.findIdx? (fun r => decide (r = id)) with
  | some n => (n : Int)
  | none => -1

/-- Modelled from the spec: `capitalize` of the external utility library turns
the first character of a string into upper case. -/
def capitalize (s : String) : String :=
  match s.data with
  | [] => String.mk []
  | c :: cs => String.mk (c.toUpper :: cs)

/-- Folding the registered `rowHeight` pipe processors over an initial value in
registration order (`unstable_applyPipeProcessors`). -/
def applyRowHeightProcessors (ps : List (Sizes → RowId → Sizes)) (sizes : Sizes)
    (id : RowId) : Sizes :=
  ps.foldl (fun acc f => f acc id) sizes

/-- The cache entry for a row, creating the default entry exactly as
`calculateRowProcessedSizes` does on a cache miss. -/
def entryOrInit (rowHeightFromDensity : Int) (e : Option RowHeightEntry) :
    RowHeightEntry :=
  match e with
  | some e => e
  | none =>
    { sizes := [("baseCenter", rowHeightFromDensity)], isResized := false,
      autoHeight := false, needsFirstMeasurement := true }

/-- The `baseRowHeight` computed by the branch ladder of
`calculateRowProcessedSizes`, together with the values the branch leaves in the
entry's `autoHeight` / `needsFirstMeasurement` flags and whether it reported an
auto-height row (`hasRowWithAutoHeight.current = true`). -/
structure BaseHeightResult where
  baseRowHeight : Int
  autoHeight : Bool
  needsFirstMeasurement : Bool
  hitAutoHeight : Bool
deriving DecidableEq

/-- The branch ladder of `calculateRowProcessedSizes`: a resized row keeps its
stored `baseCenter`; otherwise the `getRowHeight` prop is consulted, `auto`
meaning the estimate on first measurement and the stored value afterwards, a
number (or nothing, defaulting to the density height) otherwise; with no prop
the density height is used.  The JS read of `sizes.baseCenter` can be
`undefined` only for a cache state no operation of this module produces; the
embedding reads it with default `0`. -/
def computeBaseRowHeight (env : Env) (e : RowHeightEntry) (id : RowId) :
    BaseHeightResult :=
  let existingBaseRowHeight := (Assoc.get e.sizes "baseCenter").getD 0
  if e.isResized then
    { baseRowHeight := existingBaseRowHeight, autoHeight := e.autoHeight,
      needsFirstMeasurement := e.needsFirstMeasurement, hitAutoHeight := false }
  else
    match env.getRowHeightProp with
    | some getRowHeight =>
      match getRowHeight id with
      | RowHeightResult.auto =>
        let baseRowHeight :=
          if e.needsFirstMeasurement then
            match env.getEstimatedRowHeight with
            | some getEstimated => (getEstimated id).getD env.rowHeightFromDensity
            | none => env.rowHeightFromDensity
          else existingBaseRowHeight
        { baseRowHeight := baseRowHeight, autoHeight := true,
          needsFirstMeasurement := e.needsFirstMeasurement, hitAutoHeight := true }
      | RowHeightResult.value v =>
        { baseRowHeight := v, autoHeight := false, needsFirstMeasurement := false,
          hitAutoHeight := false }
      | RowHeightResult.nullish =>
        { baseRowHeight := env.rowHeightFromDensity, autoHeight := false,
          needsFirstMeasurement := false, hitAutoHeight := false }
    | none =>
      { baseRowHeight := env.rowHeightFromDensity, autoHeight := e.autoHeight,
        needsFirstMeasurement := false, hitAutoHeight := false }

/-- The `initialHeights` record of `calculateRowProcessedSizes`: the existing
`base*` components of the old sizes with `baseCenter` overridden by the
computed base row height, plus the spacing components when a `getRowSpacing`
prop is configured. -/
def buildInitialHeights (env : Env) (sizes : Sizes) (baseRowHeight : Int)
    (id : RowId) : Sizes :=
  let initialHeights := Assoc.set (basePart sizes) "baseCenter" baseRowHeight
  match env.getRowSpacing with
  | some getRowSpacing =>
    let indexRelativeToCurrentPage := rowIndexRelativeToVisibleRows env.visibleRows id
    let spacing := getRowSpacing id (decide (indexRelativeToCurrentPage = 0))
      (decide (indexRelativeToCurrentPage = (env.visibleRows.length : Int) - 1))
      indexRelativeToCurrentPage
    Assoc.set (Assoc.set initialHeights "spacingTop" (spacing.top.getD 0))
      "spacingBottom" (spacing.bottom.getD 0)
  | none => initialHeights

/-- `calculateRowProcessedSizes` for one row: given the row's current cache
entry (or `none` on a miss) it returns the processed sizes it hands back to the
caller, the cache entry it leaves behind (processed sizes stored, flags as set
by the branch taken), and whether it set `hasRowWithAutoHeight`. -/
def calculateRowProcessedSizes (env : Env) (e0 : Option RowHeightEntry)
    (id : RowId) : Sizes × RowHeightEntry × Bool :=
  let e := entryOrInit env.rowHeightFromDensity e0
  let r := computeBaseRowHeight env e id
  let processedSizes :=
    applyRowHeightProcessors env.processors
      (buildInitialHeights env e.sizes r.baseRowHeight id) id
  (processedSizes,
    { isResized := e.isResized, sizes := processedSizes, autoHeight := r.autoHeight,
      needsFirstMeasurement := r.needsFirstMeasurement },
    r.hitAutoHeight)

/-- Result of processing the visible page: the per-row pairs of cumulative
position and processed sizes (the reduce pushes the accumulator as the row's
position, then adds the row's total height), the final accumulator
(`currentPageTotalHeight`), and the evolved cache and auto-height flag. -/
structure PageResult where
  entries : List (Int × Sizes)
  total : Int
  lookup : Lookup
  hasAuto : Bool

/-- The `currentPage.rows.reduce` of `hydrateRowsMeta`. -/
def processVisibleRows (env : Env) (rows : List RowId) (L : Lookup)
    (hasAuto : Bool) (acc : Int) : PageResult :=
  match rows with
  | [] => { entries := [], total := acc, lookup := L, hasAuto := hasAuto }
  | r :: rs =>
    let c := calculateRowProcessedSizes env (Assoc.get L r) r
    let res := processVisibleRows env rs (Assoc.set L r c.2.1) (hasAuto || c.2.2)
      (acc + totalRowHeight c.1)
    { res with entries := (acc, c.1) :: res.entries }

/-- The `pinnedRows.top.forEach` / `pinnedRows.bottom.forEach` of
`hydrateRowsMeta`: the rows are measured for the cache only. -/
def processPinnedRows (env : Env) (rows : List RowId) (L : Lookup)
    (hasAuto : Bool) : Lookup × Bool :=
  match rows with
  | [] => (L, hasAuto)
  | r :: rs =>
    let c := calculateRowProcessedSizes env (Assoc.get L r) r
    processPinnedRows env rs (Assoc.set L r c.2.1) (hasAuto || c.2.2)

/-- `hydrateRowsMeta`: reset the auto-height flag, walk the visible page
accumulating positions and the total height, measure the pinned rows, commit
`positions` / `currentPageTotalHeight` to the state, and set the watermark to
`Infinity` when no row has auto height. -/
def hydrateRowsMeta (env : Env) (s : MetaState) : MetaState :=
  let page := processVisibleRows env env.visibleRows s.lookup false 0
  let top := processPinnedRows env env.pinnedTop page.lookup page.hasAuto
  let bottom := processPinnedRows env env.pinnedBottom top.1 top.2
  { lookup := bottom.1,
    hasRowWithAutoHeight := bottom.2,
    lastMeasuredRowIndex :=
      if bottom.2 then s.lastMeasuredRowIndex else Watermark.inf,
    positions := page.entries.map Prod.fst,
    currentPageTotalHeight := page.total }

/-- The position / processed-sizes pairs of the visible page of one
`hydrateRowsMeta` run from a given state. -/
def pageRows (env : Env) (s : MetaState) : List (Int × Sizes) :=
  (processVisibleRows env env.visibleRows s.lookup false 0).entries

/-- `unstable_getRowHeight`: the stored `baseCenter` when the row is cached
(which JS reports as `undefined` when the component is missing, hence the
`Option`), the density height otherwise. -/
def getRowHeight (rowHeightFromDensity : Int) (L : Lookup) (id : RowId) :
    Option Int :=
  match Assoc.get L id with
  | some e => Assoc.get e.sizes "baseCenter"
  | none => some rowHeightFromDensity

/-- `unstable_rowHasAutoHeight`. -/
def rowHasAutoHeight (L : Lookup) (id : RowId) : Bool :=
  match Assoc.get L id with
  | some e => e.autoHeight
  | none => false

/-- `unstable_setRowHeight`: writes `baseCenter`, marks the row resized, and
runs `hydrateRowsMeta` immediately.  The source accesses the cache entry
without a guard, so a missing row id is a fault, embedded as `none`. -/
def setRowHeight (env : Env) (id : RowId) (height : Int) (s : MetaState) :
    Option MetaState :=
  match Assoc.get s.lookup id with
  | none => none
  | some e =>
    let e' := { e with sizes := Assoc.set e.sizes "baseCenter" height,
                       isResized := true, needsFirstMeasurement := false }
    some (hydrateRowsMeta env { s with lookup := Assoc.set s.lookup id e' })

/-- `unstable_storeRowHeightMeasurement`: a no-op unless the row is cached and
flagged auto height; otherwise it clears `needsFirstMeasurement`, stores the
measurement under `base` + capitalized position, and schedules the debounced
`hydrateRowsMeta` exactly when the stored value differed.  The returned
`Bool` is the embedding of that debounced scheduling. -/
def storeMeasuredRowHeight (id : RowId) (height : Int) (position : String)
    (s : MetaState) : MetaState × Bool :=
  match Assoc.get s.lookup id with
  | none => (s, false)
  | some e =>
    if !e.autoHeight then (s, false)
    else
      let key := "base" ++ capitalize position
      let needsHydration := decide (Assoc.get e.sizes key ≠ some height)
      let e' := { e with needsFirstMeasurement := false,
                         sizes := Assoc.set e.sizes key height }
      ({ s with lookup := Assoc.set s.lookup id e' }, needsHydration)

/-- `unstable_setLastMeasuredRowIndex`: advance the watermark only while some
row is in auto-height mode and the new index is strictly beyond it. -/
def setLastMeasuredRowIndex (index : Int) (s : MetaState) : MetaState :=
  if s.hasRowWithAutoHeight && Watermark.ltIndex s.lastMeasuredRowIndex index then
    { s with lastMeasuredRowIndex := Watermark.val index }
  else s

/-- Modelled from the spec: the reserved field name of the detail-panel toggle
column, imported by the processor from a sibling module that is not part of
the given source.  Its concrete value is immaterial to the properties. -/
def GRID_DETAIL_PANEL_TOGGLE_FIELD : String := "__detail_panel_toggle__"

/-- A column definition as far as the detail-panel processor observes it.
Modelled from the spec: the toggle column definition is a fixed record whose
`headerName` is filled from the locale text. -/
structure DetailColDef where
  headerName : String
deriving DecidableEq

/-- The columns state folded through the `hydrateColumns` pipe: the ordered
field list and the field-to-definition lookup. -/
structure DetailColumnsState where
  orderedFields : List String
  lookup : List (String × DetailColDef)
deriving DecidableEq

/-- The detail-panel `hydrateColumns` processor (`addToggleColumn`): with no
`getDetailPanelContent` capability it removes the toggle column when the
lookup holds it; otherwise it returns the state unchanged when the lookup
already holds the toggle column, and prepends it to the ordered fields (and
adds its definition to the lookup) when it does not. -/
def addToggleColumn (getDetailPanelContentConfigured : Bool) (localeText : String)
    (cs : DetailColumnsState) : DetailColumnsState :=
  if !getDetailPanelContentConfigured then
    if (Assoc.get cs.lookup GRID_DETAIL_PANEL_TOGGLE_FIELD).isSome then
      { lookup := Assoc.eraseKey cs.lookup GRID_DETAIL_PANEL_TOGGLE_FIELD,
        orderedFields :=
          cs.orderedFields.filter
            (fun field => !decide (field = GRID_DETAIL_PANEL_TOGGLE_FIELD)) }
    else cs
  else if (Assoc.get cs.lookup GRID_DETAIL_PANEL_TOGGLE_FIELD).isSome then cs
  else
    { orderedFields := GRID_DETAIL_PANEL_TOGGLE_FIELD :: cs.orderedFields,
      lookup := Assoc.set cs.lookup GRID_DETAIL_PANEL_TOGGLE_FIELD
        { headerName := localeText } }

/-- A JS number that may be `Infinity`, as stored in a column's dimension
properties. -/
inductive ExtNum : Type
  | fin (v : Int)
  | inf
deriving DecidableEq

/-- A column definition as far as the state-export processor observes it: its
field, the `hasBeenResized` flag, and its dimension properties (a property may
be `undefined`, hence the `Assoc.get` read below). -/
structure ExportColDef where
  field : String
  hasBeenResized : Bool
  dims : List (String × ExtNum)
deriving DecidableEq

/-- Modelled from the spec: `COLUMNS_DIMENSION_PROPERTIES`, the fixed list of
per-column dimension property names the export walks; it is imported from a
utility module that is not part of the given source, and its exact contents
are immaterial to the properties. -/
def COLUMNS_DIMENSION_PROPERTIES : List String :=
  ["maxWidth", "minWidth", "width", "flex"]

/-- The columns slice of an exported state snapshot
(`GridColumnsInitialState`): a key that the processor did not assign is
`none`. -/
structure GridColumnsInitialState where
  columnVisibilityModel : Option (List (String × Bool))
  orderedFields : Option (List String)
  dimensions : Option (List (String × List (String × Option ExtNum)))
deriving DecidableEq

/-- The dimensions record exported for one resized column: every dimension
property is assigned (an `undefined` property stays `undefined`), with an
`Infinity` value replaced by the sentinel `-1`. -/
def exportedColDefDimensions (c : ExportColDef) : List (String × Option ExtNum) :=
  COLUMNS_DIMENSION_PROPERTIES.foldl
    (fun acc propertyName =>
      let propertyValue := Assoc.get c.dims propertyName
      let propertyValue :=
        if propertyValue = some ExtNum.inf then some (ExtNum.fin (-1))
        else propertyValue
      Assoc.set acc propertyName propertyValue)
    []

/-- The `dimensions` record accumulated by the export processor's walk over
the column definitions: every column flagged `hasBeenResized` contributes its
exported dimensions under its field (the source starts from the empty record;
the accumulator is a parameter so that the walk can be reasoned about
step by step). -/
def exportedDimensions (init : List (String × List (String × Option ExtNum)))
    (columns : List ExportColDef) : List (String × List (String × Option ExtNum)) :=
  columns.foldl
    (fun acc colDef =>
      if colDef.hasBeenResized then
        Assoc.set acc colDef.field (exportedColDefDimensions colDef)
      else acc)
    init

/-- The columns `exportState` processor (`stateExportPreProcessing`), returning
the columns slice it installs in the exported state.  The visibility model is
exported unless `exportOnlyDirtyModels` is set while the model is uncontrolled
(`props.columnVisibilityModel` nullish), was not initialized to a non-empty
model, and is currently empty; the ordered fields are always exported; the
dimensions of the columns flagged `hasBeenResized` are exported when at least
one column is flagged. -/
def stateExportPreProcessing (exportOnlyDirtyModels : Bool)
    (propsColumnVisibilityModel : Option (List (String × Bool)))
    (initialStateColumnVisibilityModel : Option (List (String × Bool)))
    (columnVisibilityModel : List (String × Bool))
    (orderedFields : List String) (columns : List ExportColDef) :
    GridColumnsInitialState :=
  let shouldExportColumnVisibilityModel :=
    !exportOnlyDirtyModels
    || propsColumnVisibilityModel.isSome
    || decide (0 < (initialStateColumnVisibilityModel.getD []).length)
    || decide (0 < columnVisibilityModel.length)
  let dimensions := exportedDimensions [] columns
  { columnVisibilityModel :=
      if shouldExportColumnVisibilityModel then some columnVisibilityModel
      else none,
    orderedFields := some orderedFields,
    dimensions := if 0 < dimensions.length then some dimensions else none }

/-- Pointwise equality of the outcome `calculateRowProcessedSizes` would
produce from two caches, over every row id. -/
def SameOutcome (env : Env) (L L' : Lookup) : Prop :=
  ∀ r : RowId,
    calculateRowProcessedSizes env (Assoc.get L r) r
      = calculateRowProcessedSizes env (Assoc.get L' r) r

/-- The cache holds the row, marked resized, with the given `baseCenter`. -/
def BaseCenterFrozen (id : RowId) (h : Int) (L : Lookup) : Prop :=
  ∃ e, Assoc.get L id = some e ∧ e.isResized = true
    ∧ Assoc.get e.sizes "baseCenter" = some h

/-- An empty rows-meta state: empty cache, watermark at `-1`, as the hook
initializes its refs and `rowsMetaStateInitializer` the state. -/
def emptyMetaState : MetaState :=
  { lookup := [], hasRowWithAutoHeight := false,
    lastMeasuredRowIndex := Watermark.val (-1), positions := [],
    currentPageTotalHeight := 0 }

/-- Witness environment: density height 30, no callbacks, no processors, one
visible row. -/
def envOneRow : Env :=
  { rowHeightFromDensity := 30, getRowHeightProp := none,
    getEstimatedRowHeight := none, getRowSpacing := none, processors := [],
    visibleRows := [0], pinnedTop := [], pinnedBottom := [] }

/-- Witness environment: two visible rows. -/
def envTwoRows : Env :=
  { rowHeightFromDensity := 30, getRowHeightProp := none,
    getEstimatedRowHeight := none, getRowSpacing := none, processors := [],
    visibleRows := [1, 2], pinnedTop := [], pinnedBottom := [] }

/-- Witness environment with no visible and no pinned rows. -/
def envNoRows : Env :=
  { rowHeightFromDensity := 30, getRowHeightProp := none,
    getEstimatedRowHeight := none, getRowSpacing := none, processors := [],
    visibleRows := [], pinnedTop := [], pinnedBottom := [] }

/-- Counterexample environment: a registered `rowHeight` processor that
rewrites the `baseCenter` component to `999`. -/
def envBaseCenterProcessor : Env :=
  { rowHeightFromDensity := 1, getRowHeightProp := none,
    getEstimatedRowHeight := none, getRowSpacing := none,
    processors := [fun sizes _ => Assoc.set sizes "baseCenter" 999],
    visibleRows := [0], pinnedTop := [], pinnedBottom := [] }

/-- Counterexample environment: a registered `rowHeight` processor that adds
`5` to the accumulated `baseTop` component on every application. -/
def envAccumulatingProcessor : Env :=
  { rowHeightFromDensity := 1, getRowHeightProp := none,
    getEstimatedRowHeight := none, getRowSpacing := none,
    processors :=
      [fun sizes _ =>
        Assoc.set sizes "baseTop" ((Assoc.get sizes "baseTop").getD 0 + 5)],
    visibleRows := [0], pinnedTop := [], pinnedBottom := [] }

/-- Witness state: row `0` cached with an ordinary fixed-height entry. -/
def stateWithRow0 : MetaState :=
  { emptyMetaState with
    lookup := [(0, { isResized := false, sizes := [("baseCenter", 10)],
                     autoHeight := false, needsFirstMeasurement := false })] }

/-- Witness state: row `0` cached in auto-height mode. -/
def stateWithAutoRow0 : MetaState :=
  { emptyMetaState with
    lookup := [(0, { isResized := false, sizes := [("baseCenter", 50)],
                     autoHeight := true, needsFirstMeasurement := true })] }

/-- Witness state: the auto-height flag of the last hydration is set. -/
def stateWithAutoFlag : MetaState :=
  { emptyMetaState with hasRowWithAutoHeight := true }

theorem Assoc.get_map_update {κ β : Type} [DecidableEq κ] (l : List (κ × β)) (k : κ) (v : β) :
    Assoc.get (l.map (fun kv => if kv.1 = k then (k, v) else kv)) k
      = (Assoc.get l k).map (fun _ => v) := by
  induction l with
  | nil => simp [Assoc.get]
  | cons kv rest ih =>
    by_cases hk : kv.1 = k
    · simp [Assoc.get, hk]
    · simpa [Assoc.get, hk] using ih

theorem Assoc.get_map_update_ne {κ β : Type} [DecidableEq κ] (l : List (κ × β)) (k k' : κ)
    (v : β) (hne : k ≠ k') :
    Assoc.get (l.map (fun kv => if kv.1 = k then (k, v) else kv)) k' = Assoc.get l k' := by
  induction l with
  | nil => simp [Assoc.get]
  | cons kv rest ih =>
    by_cases hk : kv.1 = k
    · simpa [Assoc.get, hk, hne, Ne.symm hne] using ih
    · simp only [List.map_cons, if_neg hk, Assoc.get]
      rw [ih]

theorem Assoc.get_append {κ β : Type} [DecidableEq κ] (l m : List (κ × β)) (k : κ) :
    Assoc.get (l ++ m) k
      = match Assoc.get l k with
        | some v => some v
        | none => Assoc.get m k := by
  induction l with
  | nil => simp [Assoc.get]
  | cons kv rest ih =>
    by_cases hk : kv.1 = k
    · simp [Assoc.get, hk]
    · simpa [Assoc.get, hk] using ih

theorem Assoc.map_update_eq_self {κ β : Type} [DecidableEq κ] (l : List (κ × β)) (k : κ)
    (v : β) (h : Assoc.get l k = none) :
    l.map (fun kv => if kv.1 = k then (k, v) else kv) = l := by
  induction l with
  | nil => simp
  | cons kv rest ih =>
    by_cases hk : kv.1 = k
    · simp [Assoc.get, hk] at h
    · simp only [Assoc.get, if_neg hk] at h
      simp [hk, ih h]

theorem Assoc.get_set_self {κ β : Type} [DecidableEq κ] (l : List (κ × β)) (k : κ) (v : β) :
    Assoc.get (Assoc.set l k v) k = some v := by
  unfold Assoc.set
  by_cases h : (Assoc.get l k).isSome
  · rw [if_pos h, Assoc.get_map_update]
    obtain ⟨w, hw⟩ := Option.isSome_iff_exists.mp h
    simp [hw]
  · rw [if_neg h, Assoc.get_append]
    rw [Option.not_isSome_iff_eq_none] at h
    simp [h, Assoc.get]

theorem Assoc.get_set_ne {κ β : Type} [DecidableEq κ] (l : List (κ × β)) (k k' : κ) (v : β)
    (hne : k ≠ k') : Assoc.get (Assoc.set l k v) k' = Assoc.get l k' := by
  unfold Assoc.set
  by_cases h : (Assoc.get l k).isSome
  · rw [if_pos h, Assoc.get_map_update_ne l k k' v hne]
  · rw [if_neg h, Assoc.get_append]
    cases hl : Assoc.get l k' with
    | some w => simp [hl]
    | none => simp [hl, Assoc.get, hne]

theorem Assoc.get_eraseKey_self {κ β : Type} [DecidableEq κ] (l : List (κ × β)) (k : κ) :
    Assoc.get (Assoc.eraseKey l k) k = none := by
  induction l with
  | nil => simp [Assoc.eraseKey, Assoc.get]
  | cons kv rest ih =>
    by_cases hk : kv.1 = k
    · simpa [Assoc.eraseKey, hk] using ih
    · simpa [Assoc.eraseKey, Assoc.get, hk] using ih

theorem Assoc.set_set_same {κ β : Type} [DecidableEq κ] (l : List (κ × β)) (k : κ) (v : β) :
    Assoc.set (Assoc.set l k v) k v = Assoc.set l k v := by
  have hs : (Assoc.get (Assoc.set l k v) k).isSome := by
    rw [Assoc.get_set_self]; rfl
  conv_lhs => rw [Assoc.set, if_pos hs]
  unfold Assoc.set
  by_cases h : (Assoc.get l k).isSome
  · rw [if_pos h, List.map_map]
    apply List.map_congr_left
    intro kv _
    by_cases hk : kv.1 = k <;> simp [hk, Function.comp]
  · rw [if_neg h]
    rw [Option.not_isSome_iff_eq_none] at h
    rw [List.map_append, Assoc.map_update_eq_self l k v h]
    simp

theorem isBaseSize_baseCenter : isBaseSize "baseCenter" = true := by decide

theorem isBaseSize_spacingTop : isBaseSize "spacingTop" = false := by decide

theorem isBaseSize_spacingBottom : isBaseSize "spacingBottom" = false := by decide

theorem basePart_all_base (sizes : Sizes) (kv : String × Int) (h : kv ∈ basePart sizes) :
    isBaseSize kv.1 = true := by
  have := List.of_mem_filter h
  simpa using this

theorem basePart_eq_self (sizes : Sizes) (h : ∀ kv ∈ sizes, isBaseSize kv.1 = true) :
    basePart sizes = sizes := by
  unfold basePart
  exact List.filter_eq_self.mpr h

theorem get_basePart_of_base (sizes : Sizes) (k : String) (hk : isBaseSize k = true) :
    Assoc.get (basePart sizes) k = Assoc.get sizes k := by
  induction sizes with
  | nil => simp [basePart, Assoc.get]
  | cons kv rest ih =>
    by_cases hkk : kv.1 = k
    · have : isBaseSize kv.1 = true := by rw [hkk]; exact hk
      simp [basePart, List.filter, this, Assoc.get, hkk, hk]
    · by_cases hb : isBaseSize kv.1 = true
      · simpa [basePart, List.filter, hb, Assoc.get, hkk] using ih
      · simp only [Bool.not_eq_true] at hb
        simpa [basePart, List.filter, hb, Assoc.get, hkk] using ih

theorem basePart_map_update_not_base (sizes : Sizes) (k : String) (v : Int)
    (hk : isBaseSize k = false) :
    basePart (sizes.map (fun kv => if kv.1 = k then (k, v) else kv)) = basePart sizes := by
  induction sizes with
  | nil => simp [basePart]
  | cons kv rest ih =>
    by_cases hkk : kv.1 = k
    · have hb : isBaseSize kv.1 = false := by rw [hkk]; exact hk
      simpa [basePart, List.filter, hb, hk, hkk] using ih
    · by_cases hb : isBaseSize kv.1 = true
      · simpa [basePart, List.filter, hb, hkk] using ih
      · simp only [Bool.not_eq_true] at hb
        simpa [basePart, List.filter, hb, hkk] using ih

theorem basePart_set_of_not_base (sizes : Sizes) (k : String) (v : Int)
    (hk : isBaseSize k = false) : basePart (Assoc.set sizes k v) = basePart sizes := by
  unfold Assoc.set
  split
  · exact basePart_map_update_not_base sizes k v hk
  · unfold basePart
    rw [List.filter_append]
    simp [List.filter, hk]

theorem allBase_set (sizes : Sizes) (k : String) (v : Int) (hk : isBaseSize k = true)
    (h : ∀ kv ∈ sizes, isBaseSize kv.1 = true) :
    ∀ kv ∈ Assoc.set sizes k v, isBaseSize kv.1 = true := by
  unfold Assoc.set
  split
  · intro kv hkv
    obtain ⟨kv', hkv', heq⟩ := List.mem_map.mp hkv
    by_cases hkk : kv'.1 = k
    · rw [if_pos hkk] at heq
      rw [← heq]
      exact hk
    · rw [if_neg hkk] at heq
      rw [← heq]
      exact h kv' hkv'
  · intro kv hkv
    rcases List.mem_append.mp hkv with hmem | hmem
    · exact h kv hmem
    · simp only [List.mem_singleton] at hmem
      rw [hmem]
      exact hk

theorem basePart_set_of_base_allBase (sizes : Sizes) (k : String) (v : Int)
    (hk : isBaseSize k = true) (h : ∀ kv ∈ sizes, isBaseSize kv.1 = true) :
    basePart (Assoc.set sizes k v) = Assoc.set sizes k v :=
  basePart_eq_self _ (allBase_set sizes k v hk h)

theorem basePart_basePart (sizes : Sizes) : basePart (basePart sizes) = basePart sizes :=
  basePart_eq_self _ (fun kv h => basePart_all_base sizes kv h)

theorem applyRowHeightProcessors_basePart (ps : List (Sizes → RowId → Sizes))
    (Hbase : ∀ f ∈ ps, ∀ sz id, basePart (f sz id) = basePart sz)
    (sizes : Sizes) (id : RowId) :
    basePart (applyRowHeightProcessors ps sizes id) = basePart sizes := by
  induction ps generalizing sizes with
  | nil => rfl
  | cons f rest ih =>
    have h1 : basePart (f sizes id) = basePart sizes :=
      Hbase f (List.mem_cons_self f rest) sizes id
    have h2 := ih (fun g hg sz i => Hbase g (List.mem_cons_of_mem f hg) sz i) (f sizes id)
    calc basePart (applyRowHeightProcessors (f :: rest) sizes id)
        = basePart (applyRowHeightProcessors rest (f sizes id) id) := rfl
      _ = basePart (f sizes id) := h2
      _ = basePart sizes := h1

theorem applyRowHeightProcessors_get_baseCenter (ps : List (Sizes → RowId → Sizes))
    (Hbc : ∀ f ∈ ps, ∀ sz id, Assoc.get (f sz id) "baseCenter" = Assoc.get sz "baseCenter")
    (sizes : Sizes) (id : RowId) :
    Assoc.get (applyRowHeightProcessors ps sizes id) "baseCenter"
      = Assoc.get sizes "baseCenter" := by
  induction ps generalizing sizes with
  | nil => rfl
  | cons f rest ih =>
    have h1 : Assoc.get (f sizes id) "baseCenter" = Assoc.get sizes "baseCenter" :=
      Hbc f (List.mem_cons_self f rest) sizes id
    have h2 := ih (fun g hg sz i => Hbc g (List.mem_cons_of_mem f hg) sz i) (f sizes id)
    calc Assoc.get (applyRowHeightProcessors (f :: rest) sizes id) "baseCenter"
        = Assoc.get (applyRowHeightProcessors rest (f sizes id) id) "baseCenter" := rfl
      _ = Assoc.get (f sizes id) "baseCenter" := h2
      _ = Assoc.get sizes "baseCenter" := h1

theorem get_buildInitialHeights_baseCenter (env : Env) (sizes : Sizes) (b : Int)
    (id : RowId) :
    Assoc.get (buildInitialHeights env sizes b id) "baseCenter" = some b := by
  unfold buildInitialHeights
  cases env.getRowSpacing with
  | none => exact Assoc.get_set_self _ _ _
  | some gs =>
    rw [Assoc.get_set_ne _ _ _ _ (by decide), Assoc.get_set_ne _ _ _ _ (by decide)]
    exact Assoc.get_set_self _ _ _

theorem basePart_buildInitialHeights (env : Env) (sizes : Sizes) (b : Int) (id : RowId) :
    basePart (buildInitialHeights env sizes b id)
      = Assoc.set (basePart sizes) "baseCenter" b := by
  unfold buildInitialHeights
  have hcore : basePart (Assoc.set (basePart sizes) "baseCenter" b)
      = Assoc.set (basePart sizes) "baseCenter" b :=
    basePart_set_of_base_allBase _ _ _ isBaseSize_baseCenter
      (fun kv h => basePart_all_base sizes kv h)
  cases env.getRowSpacing with
  | none => exact hcore
  | some gs =>
    rw [basePart_set_of_not_base _ _ _ isBaseSize_spacingBottom,
      basePart_set_of_not_base _ _ _ isBaseSize_spacingTop]
    exact hcore

theorem buildInitialHeights_congr (env : Env) (sizes sizes' : Sizes) (b : Int) (id : RowId)
    (h : Assoc.set (basePart sizes) "baseCenter" b = Assoc.set (basePart sizes') "baseCenter" b) :
    buildInitialHeights env sizes b id = buildInitialHeights env sizes' b id := by
  simp only [buildInitialHeights]
  rw [h]

theorem buildInitialHeights_idem (env : Env) (sizes : Sizes) (b : Int) (id : RowId) :
    buildInitialHeights env (buildInitialHeights env sizes b id) b id
      = buildInitialHeights env sizes b id := by
  apply buildInitialHeights_congr
  rw [basePart_buildInitialHeights, Assoc.set_set_same]

theorem computeBaseRowHeight_stable (env : Env) (e : RowHeightEntry) (id : RowId) (P : Sizes)
    (hP : Assoc.get P "baseCenter" = some (computeBaseRowHeight env e id).baseRowHeight) :
    computeBaseRowHeight env
      { isResized := e.isResized, sizes := P,
        autoHeight := (computeBaseRowHeight env e id).autoHeight,
        needsFirstMeasurement := (computeBaseRowHeight env e id).needsFirstMeasurement } id
      = computeBaseRowHeight env e id := by
  cases hres : e.isResized with
  | true =>
    simp only [computeBaseRowHeight, hres, if_true, hP]
    simp [computeBaseRowHeight, hres, hP]
  | false =>
    cases hprop : env.getRowHeightProp with
    | none => simp [computeBaseRowHeight, hres, hprop]
    | some f =>
      cases hf : f id with
      | auto =>
        cases hnf : e.needsFirstMeasurement with
        | true => simp [computeBaseRowHeight, hres, hprop, hf, hnf]
        | false =>
          simp only [computeBaseRowHeight, hres, hprop, hf, hnf] at hP ⊢
          simp [hP]
      | value v => simp [computeBaseRowHeight, hres, hprop, hf]
      | nullish => simp [computeBaseRowHeight, hres, hprop, hf]

theorem entryOrInit_some (d : Int) (e : RowHeightEntry) : entryOrInit d (some e) = e := rfl

theorem calculateRowProcessedSizes_fixpoint (env : Env)
    (Hbase : ∀ f ∈ env.processors, ∀ sz i, basePart (f sz i) = basePart sz)
    (e0 : Option RowHeightEntry) (id : RowId) :
    calculateRowProcessedSizes env (some (calculateRowProcessedSizes env e0 id).2.1) id
      = calculateRowProcessedSizes env e0 id := by
  have hPbc : Assoc.get
      (applyRowHeightProcessors env.processors
        (buildInitialHeights env (entryOrInit env.rowHeightFromDensity e0).sizes
          (computeBaseRowHeight env (entryOrInit env.rowHeightFromDensity e0) id).baseRowHeight
          id) id) "baseCenter"
      = some (computeBaseRowHeight env (entryOrInit env.rowHeightFromDensity e0) id).baseRowHeight := by
    rw [← get_basePart_of_base _ _ isBaseSize_baseCenter,
      applyRowHeightProcessors_basePart env.processors Hbase,
      get_basePart_of_base _ _ isBaseSize_baseCenter,
      get_buildInitialHeights_baseCenter]
  have hr2 := computeBaseRowHeight_stable env (entryOrInit env.rowHeightFromDensity e0) id _ hPbc
  have hbuild : buildInitialHeights env
      (applyRowHeightProcessors env.processors
        (buildInitialHeights env (entryOrInit env.rowHeightFromDensity e0).sizes
          (computeBaseRowHeight env (entryOrInit env.rowHeightFromDensity e0) id).baseRowHeight
          id) id)
      (computeBaseRowHeight env (entryOrInit env.rowHeightFromDensity e0) id).baseRowHeight id
      = buildInitialHeights env (entryOrInit env.rowHeightFromDensity e0).sizes
          (computeBaseRowHeight env (entryOrInit env.rowHeightFromDensity e0) id).baseRowHeight
          id := by
    rw [buildInitialHeights_congr env _
        (buildInitialHeights env (entryOrInit env.rowHeightFromDensity e0).sizes
          (computeBaseRowHeight env (entryOrInit env.rowHeightFromDensity e0) id).baseRowHeight
          id) _ id
        (by rw [applyRowHeightProcessors_basePart env.processors Hbase]),
      buildInitialHeights_idem]
  simp only [calculateRowProcessedSizes, entryOrInit_some]
  rw [hr2, hbuild]

theorem sameOutcome_refl (env : Env) (L : Lookup) : SameOutcome env L L :=
  fun _ => rfl

theorem sameOutcome_trans (env : Env) (L1 L2 L3 : Lookup) (h1 : SameOutcome env L1 L2)
    (h2 : SameOutcome env L2 L3) : SameOutcome env L1 L3 :=
  fun r => (h1 r).trans (h2 r)

theorem sameOutcome_set (env : Env)
    (Hbase : ∀ f ∈ env.processors, ∀ sz i, basePart (f sz i) = basePart sz)
    (L : Lookup) (r : RowId) :
    SameOutcome env (Assoc.set L r (calculateRowProcessedSizes env (Assoc.get L r) r).2.1) L := by
  intro r'
  by_cases h : r = r'
  · subst h
    rw [Assoc.get_set_self]
    exact calculateRowProcessedSizes_fixpoint env Hbase _ r
  · rw [Assoc.get_set_ne _ _ _ _ h]

theorem sameOutcome_set_congr (env : Env) (L L' : Lookup) (r : RowId) (e : RowHeightEntry)
    (h : SameOutcome env L L') :
    SameOutcome env (Assoc.set L r e) (Assoc.set L' r e) := by
  intro r'
  by_cases hr : r = r'
  · subst hr
    rw [Assoc.get_set_self, Assoc.get_set_self]
  · rw [Assoc.get_set_ne _ _ _ _ hr, Assoc.get_set_ne _ _ _ _ hr]
    exact h r'

theorem processVisibleRows_congr (env : Env) (rows : List RowId) :
    ∀ (L L' : Lookup) (a : Bool) (acc : Int), SameOutcome env L L' →
      (processVisibleRows env rows L a acc).entries
          = (processVisibleRows env rows L' a acc).entries
      ∧ (processVisibleRows env rows L a acc).total
          = (processVisibleRows env rows L' a acc).total
      ∧ (processVisibleRows env rows L a acc).hasAuto
          = (processVisibleRows env rows L' a acc).hasAuto
      ∧ SameOutcome env (processVisibleRows env rows L a acc).lookup
          (processVisibleRows env rows L' a acc).lookup := by
  induction rows with
  | nil =>
    intro L L' a acc h
    exact ⟨rfl, rfl, rfl, h⟩
  | cons r rs ih =>
    intro L L' a acc h
    have hc : calculateRowProcessedSizes env (Assoc.get L r) r
        = calculateRowProcessedSizes env (Assoc.get L' r) r := h r
    have hnext := ih
      (Assoc.set L r (calculateRowProcessedSizes env (Assoc.get L' r) r).2.1)
      (Assoc.set L' r (calculateRowProcessedSizes env (Assoc.get L' r) r).2.1)
      (a || (calculateRowProcessedSizes env (Assoc.get L' r) r).2.2)
      (acc + totalRowHeight (calculateRowProcessedSizes env (Assoc.get L' r) r).1)
      (sameOutcome_set_congr env L L' r _ h)
    obtain ⟨h1, h2, h3, h4⟩ := hnext
    simp only [processVisibleRows, hc]
    exact ⟨by rw [h1], h2, h3, h4⟩

theorem processVisibleRows_sameOutcome (env : Env)
    (Hbase : ∀ f ∈ env.processors, ∀ sz i, basePart (f sz i) = basePart sz)
    (rows : List RowId) :
    ∀ (L : Lookup) (a : Bool) (acc : Int),
      SameOutcome env (processVisibleRows env rows L a acc).lookup L := by
  induction rows with
  | nil => intro L a acc r; rfl
  | cons r rs ih =>
    intro L a acc
    have h1 := ih (Assoc.set L r (calculateRowProcessedSizes env (Assoc.get L r) r).2.1)
      (a || (calculateRowProcessedSizes env (Assoc.get L r) r).2.2)
      (acc + totalRowHeight (calculateRowProcessedSizes env (Assoc.get L r) r).1)
    have h2 := sameOutcome_set env Hbase L r
    simp only [processVisibleRows]
    exact sameOutcome_trans env _ _ _ h1 h2

theorem processPinnedRows_congr (env : Env) (rows : List RowId) :
    ∀ (L L' : Lookup) (a : Bool), SameOutcome env L L' →
      (processPinnedRows env rows L a).2 = (processPinnedRows env rows L' a).2
      ∧ SameOutcome env (processPinnedRows env rows L a).1 (processPinnedRows env rows L' a).1 := by
  induction rows with
  | nil => intro L L' a h; exact ⟨rfl, h⟩
  | cons r rs ih =>
    intro L L' a h
    have hc : calculateRowProcessedSizes env (Assoc.get L r) r
        = calculateRowProcessedSizes env (Assoc.get L' r) r := h r
    have hnext := ih
      (Assoc.set L r (calculateRowProcessedSizes env (Assoc.get L' r) r).2.1)
      (Assoc.set L' r (calculateRowProcessedSizes env (Assoc.get L' r) r).2.1)
      (a || (calculateRowProcessedSizes env (Assoc.get L' r) r).2.2)
      (sameOutcome_set_congr env L L' r _ h)
    simp only [processPinnedRows, hc]
    exact hnext

theorem processPinnedRows_sameOutcome (env : Env)
    (Hbase : ∀ f ∈ env.processors, ∀ sz i, basePart (f sz i) = basePart sz)
    (rows : List RowId) :
    ∀ (L : Lookup) (a : Bool),
      SameOutcome env (processPinnedRows env rows L a).1 L := by
  induction rows with
  | nil => intro L a r; rfl
  | cons r rs ih =>
    intro L a
    have h1 := ih (Assoc.set L r (calculateRowProcessedSizes env (Assoc.get L r) r).2.1)
      (a || (calculateRowProcessedSizes env (Assoc.get L r) r).2.2)
    have h2 := sameOutcome_set env Hbase L r
    simp only [processPinnedRows]
    exact sameOutcome_trans env _ _ _ h1 h2

theorem hydrateRowsMeta_lookup_sameOutcome (env : Env)
    (Hbase : ∀ f ∈ env.processors, ∀ sz i, basePart (f sz i) = basePart sz)
    (s : MetaState) :
    SameOutcome env (hydrateRowsMeta env s).lookup s.lookup := by
  have h1 := processVisibleRows_sameOutcome env Hbase env.visibleRows s.lookup false 0
  have h2 := processPinnedRows_sameOutcome env Hbase env.pinnedTop
    (processVisibleRows env env.visibleRows s.lookup false 0).lookup
    (processVisibleRows env env.visibleRows s.lookup false 0).hasAuto
  have h3 := processPinnedRows_sameOutcome env Hbase env.pinnedBottom
    (processPinnedRows env env.pinnedTop
      (processVisibleRows env env.visibleRows s.lookup false 0).lookup
      (processVisibleRows env env.visibleRows s.lookup false 0).hasAuto).1
    (processPinnedRows env env.pinnedTop
      (processVisibleRows env env.visibleRows s.lookup false 0).lookup
      (processVisibleRows env env.visibleRows s.lookup false 0).hasAuto).2
  exact sameOutcome_trans env _ _ _ (sameOutcome_trans env _ _ _ h3 h2) h1

theorem processVisibleRows_entries_length (env : Env) (rows : List RowId) :
    ∀ (L : Lookup) (a : Bool) (acc : Int),
      (processVisibleRows env rows L a acc).entries.length = rows.length := by
  induction rows with
  | nil => intro L a acc; rfl
  | cons r rs ih =>
    intro L a acc
    simp only [processVisibleRows, List.length_cons]
    rw [ih]

theorem processVisibleRows_first_pos (env : Env) (rows : List RowId) :
    ∀ (L : Lookup) (a : Bool) (acc : Int) (pr : Int × Sizes),
      (processVisibleRows env rows L a acc).entries[0]? = some pr → pr.1 = acc := by
  cases rows with
  | nil =>
    intro L a acc pr h
    simp [processVisibleRows] at h
  | cons r rs =>
    intro L a acc pr h
    simp only [processVisibleRows, List.getElem?_cons_zero] at h
    rw [← Option.some_inj.mp h]

theorem processVisibleRows_pos_diff (env : Env) (rows : List RowId) :
    ∀ (L : Lookup) (a : Bool) (acc : Int) (i : Nat) (x y : Int × Sizes),
      (processVisibleRows env rows L a acc).entries[i]? = some x →
      (processVisibleRows env rows L a acc).entries[i + 1]? = some y →
      y.1 = x.1 + totalRowHeight x.2 := by
  induction rows with
  | nil =>
    intro L a acc i x y hx hy
    simp [processVisibleRows] at hx
  | cons r rs ih =>
    intro L a acc i x y hx hy
    simp only [processVisibleRows] at hx hy
    cases i with
    | zero =>
      rw [List.getElem?_cons_zero] at hx
      rw [List.getElem?_cons_succ] at hy
      have hx' := Option.some_inj.mp hx
      have hy' := processVisibleRows_first_pos env rs _ _ _ y hy
      rw [hy', ← hx']
    | succ j =>
      rw [List.getElem?_cons_succ] at hx hy
      exact ih _ _ _ j x y hx hy

theorem listGetLast?_cons_of_ne_nil {α : Type} (x : α) (l : List α) (h : l ≠ []) :
    (x :: l).getLast? = l.getLast? := by
  cases l with
  | nil => exact absurd rfl h
  | cons y ys => exact List.getLast?_cons_cons

theorem processVisibleRows_total_last (env : Env) (rows : List RowId) :
    ∀ (L : Lookup) (a : Bool) (acc : Int), rows ≠ [] →
      ∃ pr, (processVisibleRows env rows L a acc).entries.getLast? = some pr
        ∧ (processVisibleRows env rows L a acc).total = pr.1 + totalRowHeight pr.2 := by
  induction rows with
  | nil => intro L a acc h; exact absurd rfl h
  | cons r rs ih =>
    intro L a acc _
    by_cases hrs : rs = []
    · subst hrs
      refine ⟨(acc, (calculateRowProcessedSizes env (Assoc.get L r) r).1), ?_, ?_⟩
      · simp [processVisibleRows]
      · simp [processVisibleRows]
    · obtain ⟨pr, hlast, htotal⟩ := ih
        (Assoc.set L r (calculateRowProcessedSizes env (Assoc.get L r) r).2.1)
        (a || (calculateRowProcessedSizes env (Assoc.get L r) r).2.2)
        (acc + totalRowHeight (calculateRowProcessedSizes env (Assoc.get L r) r).1) hrs
      have hEne : (processVisibleRows env rs
          (Assoc.set L r (calculateRowProcessedSizes env (Assoc.get L r) r).2.1)
          (a || (calculateRowProcessedSizes env (Assoc.get L r) r).2.2)
          (acc + totalRowHeight (calculateRowProcessedSizes env (Assoc.get L r) r).1)).entries
          ≠ [] := by
        intro hcon
        have hlen := processVisibleRows_entries_length env rs
          (Assoc.set L r (calculateRowProcessedSizes env (Assoc.get L r) r).2.1)
          (a || (calculateRowProcessedSizes env (Assoc.get L r) r).2.2)
          (acc + totalRowHeight (calculateRowProcessedSizes env (Assoc.get L r) r).1)
        rw [hcon] at hlen
        exact hrs (List.length_eq_zero.mp (by simpa using hlen.symm))
      refine ⟨pr, ?_, ?_⟩
      · simp only [processVisibleRows]
        rw [listGetLast?_cons_of_ne_nil _ _ hEne]
        exact hlast
      · simp only [processVisibleRows]
        exact htotal

theorem maxBaseSize_nonneg (sizes : Sizes) : 0 ≤ maxBaseSize sizes := by
  have aux : ∀ (l : Sizes) (init : Int), init ≤ l.foldl
      (fun m kv => if isBaseSize kv.1 then (if kv.2 > m then kv.2 else m) else m) init := by
    intro l
    induction l with
    | nil => intro init; exact le_refl init
    | cons kv rest ih =>
      intro init
      refine le_trans ?_ (ih _)
      by_cases hb : isBaseSize kv.1 = true
      · by_cases hv : kv.2 > init
        · simp [hb, hv]; exact le_of_lt hv
        · simp [hb, hv]
      · simp only [Bool.not_eq_true] at hb
        simp [hb]
  exact aux sizes 0

theorem otherSizesSum_nonneg (sizes : Sizes) (h : ∀ kv ∈ sizes, 0 ≤ kv.2) :
    0 ≤ otherSizesSum sizes := by
  have aux : ∀ (l : Sizes), (∀ kv ∈ l, 0 ≤ kv.2) → ∀ (init : Int), 0 ≤ init →
      0 ≤ l.foldl (fun t kv => if isBaseSize kv.1 then t else t + kv.2) init := by
    intro l
    induction l with
    | nil => intro _ init hinit; exact hinit
    | cons kv rest ih =>
      intro hmem init hinit
      refine ih (fun kv' hkv' => hmem kv' (List.mem_cons_of_mem kv hkv')) _ ?_
      by_cases hb : isBaseSize kv.1 = true
      · simpa [hb] using hinit
      · simp only [Bool.not_eq_true] at hb
        simp only [hb, if_neg]
        have := hmem kv (List.mem_cons_self kv rest)
        simp only [Bool.false_eq_true, if_false]
        exact add_nonneg hinit this
  exact aux sizes h 0 (le_refl 0)

theorem totalRowHeight_nonneg (sizes : Sizes) (h : ∀ kv ∈ sizes, 0 ≤ kv.2) :
    0 ≤ totalRowHeight sizes :=
  add_nonneg (maxBaseSize_nonneg sizes) (otherSizesSum_nonneg sizes h)

/-- C1: for every run of `hydrateRowsMeta`, the resulting
`currentPageTotalHeight` equals the last entry of `positions` plus the total
computed height of the last visible row when the visible page is non-empty,
and equals `0` (with empty `positions`) when the visible page is empty. -/
theorem hydrateRowsMeta_total_eq_last_pos_plus_height (env : Env) (s : MetaState) :
    (env.visibleRows ≠ [] →
      ∃ pr, (pageRows env s).getLast? = some pr
        ∧ (hydrateRowsMeta env s).positions.getLast? = some pr.1
        ∧ (hydrateRowsMeta env s).currentPageTotalHeight = pr.1 + totalRowHeight pr.2)
    ∧ (env.visibleRows = [] →
      (hydrateRowsMeta env s).currentPageTotalHeight = 0
      ∧ (hydrateRowsMeta env s).positions = []) := by
  constructor
  · intro hne
    obtain ⟨pr, hlast, htotal⟩ :=
      processVisibleRows_total_last env env.visibleRows s.lookup false 0 hne
    refine ⟨pr, hlast, ?_, htotal⟩
    show ((processVisibleRows env env.visibleRows s.lookup false 0).entries.map
      Prod.fst).getLast? = some pr.1
    rw [List.getLast?_map, hlast]
    rfl
  · intro hemp
    constructor
    · show (processVisibleRows env env.visibleRows s.lookup false 0).total = 0
      rw [hemp]
      rfl
    · show (processVisibleRows env env.visibleRows s.lookup false 0).entries.map
        Prod.fst = []
      rw [hemp]
      rfl

/-- Witness for C1 at a concrete one-row page. -/
theorem hydrateRowsMeta_total_eq_last_pos_plus_height_witness :
    envOneRow.visibleRows ≠ []
    ∧ ∃ pr, (pageRows envOneRow emptyMetaState).getLast? = some pr
        ∧ (hydrateRowsMeta envOneRow emptyMetaState).positions.getLast? = some pr.1
        ∧ (hydrateRowsMeta envOneRow emptyMetaState).currentPageTotalHeight
            = pr.1 + totalRowHeight pr.2 :=
  ⟨by decide,
   (hydrateRowsMeta_total_eq_last_pos_plus_height envOneRow emptyMetaState).1 (by decide)⟩

/-- C2: after every run of `hydrateRowsMeta`, `positions` has one entry per
visible row; when every processed size component is non-negative, consecutive
positions differ by exactly the row's total computed height (maximum of the
`base*` components plus the sum of the other components) and are
non-decreasing. -/
theorem hydrateRowsMeta_positions_invariant (env : Env) (s : MetaState) :
    (hydrateRowsMeta env s).positions.length = env.visibleRows.length
    ∧ ((∀ pr ∈ pageRows env s, ∀ kv ∈ pr.2, (0:Int) ≤ kv.2) →
        ∀ (i : Nat) (x y : Int),
          (hydrateRowsMeta env s).positions[i]? = some x →
          (hydrateRowsMeta env s).positions[i + 1]? = some y →
          (∃ pr, (pageRows env s)[i]? = some pr ∧ y - x = totalRowHeight pr.2)
          ∧ x ≤ y) := by
  constructor
  · show ((processVisibleRows env env.visibleRows s.lookup false 0).entries.map
      Prod.fst).length = env.visibleRows.length
    rw [List.length_map]
    exact processVisibleRows_entries_length env env.visibleRows s.lookup false 0
  · intro hnn i x y hx hy
    have hx' : ((pageRows env s).map Prod.fst)[i]? = some x := hx
    have hy' : ((pageRows env s).map Prod.fst)[i + 1]? = some y := hy
    rw [List.getElem?_map] at hx' hy'
    cases hpx : (pageRows env s)[i]? with
    | none => rw [hpx] at hx'; simp at hx'
    | some prx =>
      cases hpy : (pageRows env s)[i + 1]? with
      | none => rw [hpy] at hy'; simp at hy'
      | some pry =>
        rw [hpx, Option.map_some'] at hx'
        rw [hpy, Option.map_some'] at hy'
        have hxval : prx.1 = x := Option.some_inj.mp hx'
        have hyval : pry.1 = y := Option.some_inj.mp hy'
        have hdiff := processVisibleRows_pos_diff env env.visibleRows s.lookup false 0
          i prx pry hpx hpy
        have hmem : prx ∈ pageRows env s := List.getElem?_mem hpx
        have hnonneg : 0 ≤ totalRowHeight prx.2 :=
          totalRowHeight_nonneg prx.2 (hnn prx hmem)
        refine ⟨⟨prx, rfl, ?_⟩, ?_⟩
        · rw [← hxval, ← hyval, hdiff]
          ring
        · rw [← hxval, ← hyval, hdiff]
          exact le_add_of_nonneg_right hnonneg

/-- Witness for C2 at a concrete two-row page. -/
theorem hydrateRowsMeta_positions_invariant_witness :
    (∀ pr ∈ pageRows envTwoRows emptyMetaState, ∀ kv ∈ pr.2, (0:Int) ≤ kv.2)
    ∧ (hydrateRowsMeta envTwoRows emptyMetaState).positions[0]? = some 0
    ∧ (hydrateRowsMeta envTwoRows emptyMetaState).positions[1]? = some 30
    ∧ ((∃ pr, (pageRows envTwoRows emptyMetaState)[0]? = some pr
          ∧ (30:Int) - 0 = totalRowHeight pr.2)
        ∧ (0:Int) ≤ 30) :=
  ⟨by decide, by decide, by decide,
   (hydrateRowsMeta_positions_invariant envTwoRows emptyMetaState).2 (by decide) 0 0 30
     (by decide) (by decide)⟩

/-- C8 (amended): calling `hydrateRowsMeta` twice with no change to any input
between the calls yields identical `positions` and `currentPageTotalHeight`,
provided every registered `rowHeight` processor leaves the `base*`-named
components of its input unchanged (the counterexample shows the second run can
differ when a processor accumulates into a `base*` component, because the
processed sizes are stored in the cache and fed back to the next run). -/
theorem hydrateRowsMeta_idempotent (env : Env) (s : MetaState)
    (Hbase : ∀ f ∈ env.processors, ∀ sz i, basePart (f sz i) = basePart sz) :
    (hydrateRowsMeta env (hydrateRowsMeta env s)).positions
        = (hydrateRowsMeta env s).positions
    ∧ (hydrateRowsMeta env (hydrateRowsMeta env s)).currentPageTotalHeight
        = (hydrateRowsMeta env s).currentPageTotalHeight := by
  have hsame := hydrateRowsMeta_lookup_sameOutcome env Hbase s
  obtain ⟨h1, h2, -, -⟩ := processVisibleRows_congr env env.visibleRows
    (hydrateRowsMeta env s).lookup s.lookup false 0 hsame
  constructor
  · show (processVisibleRows env env.visibleRows (hydrateRowsMeta env s).lookup
        false 0).entries.map Prod.fst
      = (processVisibleRows env env.visibleRows s.lookup false 0).entries.map Prod.fst
    rw [h1]
  · exact h2

/-- Counterexample for C8 as stated: with a registered `rowHeight` processor
that adds `5` to the accumulated `baseTop` component, a second
`hydrateRowsMeta` run with no input change produces a different
`currentPageTotalHeight` (`10` instead of `5`). -/
theorem hydrateRowsMeta_idempotent_counterexample :
    (hydrateRowsMeta envAccumulatingProcessor
        (hydrateRowsMeta envAccumulatingProcessor emptyMetaState)).currentPageTotalHeight
      ≠ (hydrateRowsMeta envAccumulatingProcessor emptyMetaState).currentPageTotalHeight
    ∧ (hydrateRowsMeta envAccumulatingProcessor
        emptyMetaState).currentPageTotalHeight = 5
    ∧ (hydrateRowsMeta envAccumulatingProcessor
        (hydrateRowsMeta envAccumulatingProcessor
          emptyMetaState)).currentPageTotalHeight = 10 := by
  refine ⟨by decide, by decide, by decide⟩

/-- Witness for C8 (amended) with no registered processors. -/
theorem hydrateRowsMeta_idempotent_witness :
    (∀ f ∈ envOneRow.processors, ∀ sz i, basePart (f sz i) = basePart sz)
    ∧ (hydrateRowsMeta envOneRow (hydrateRowsMeta envOneRow emptyMetaState)).positions
        = (hydrateRowsMeta envOneRow emptyMetaState).positions
    ∧ (hydrateRowsMeta envOneRow
          (hydrateRowsMeta envOneRow emptyMetaState)).currentPageTotalHeight
        = (hydrateRowsMeta envOneRow emptyMetaState).currentPageTotalHeight :=
  ⟨by intro f hf; simp [envOneRow] at hf,
   (hydrateRowsMeta_idempotent envOneRow emptyMetaState
      (by intro f hf; simp [envOneRow] at hf)).1,
   (hydrateRowsMeta_idempotent envOneRow emptyMetaState
      (by intro f hf; simp [envOneRow] at hf)).2⟩

/-- C9: `setRowHeight` on a row id absent from the height cache faults with a
missing-entry access (embedded as `none`): it neither raises a dedicated
not-found error nor no-ops. -/
theorem setRowHeight_absent_faults (env : Env) (s : MetaState) (id : RowId)
    (height : Int) (habs : Assoc.get s.lookup id = none) :
    setRowHeight env id height s = none := by
  simp [setRowHeight, habs]

/-- Witness for C9. -/
theorem setRowHeight_absent_faults_witness :
    Assoc.get emptyMetaState.lookup 5 = none
    ∧ setRowHeight envOneRow 5 42 emptyMetaState = none :=
  ⟨by decide, setRowHeight_absent_faults envOneRow emptyMetaState 5 42 (by decide)⟩

/-- C10: for a row id absent from the cache, `unstable_getRowHeight` returns
the density derived base row height without faulting and
`unstable_rowHasAutoHeight` returns `false`. -/
theorem getRowHeight_absent_safe (rowHeightFromDensity : Int) (L : Lookup)
    (id : RowId) (habs : Assoc.get L id = none) :
    getRowHeight rowHeightFromDensity L id = some rowHeightFromDensity
    ∧ rowHasAutoHeight L id = false := by
  constructor
  · simp [getRowHeight, habs]
  · simp [rowHasAutoHeight, habs]

/-- Witness for C10. -/
theorem getRowHeight_absent_safe_witness :
    Assoc.get ([] : Lookup) 5 = none
    ∧ getRowHeight 30 ([] : Lookup) 5 = some 30
    ∧ rowHasAutoHeight ([] : Lookup) 5 = false :=
  ⟨by decide, (getRowHeight_absent_safe 30 [] 5 (by decide)).1,
   (getRowHeight_absent_safe 30 [] 5 (by decide)).2⟩

/-- C5: `setLastMeasuredRowIndex` advances the watermark exactly when some row
is in auto-height mode and the index is strictly beyond the watermark, and is
the identity otherwise; a `hydrateRowsMeta` run that finds no auto-height row
sets the watermark to `Infinity`. -/
theorem setLastMeasuredRowIndex_monotonic (env : Env) (s : MetaState) (index : Int) :
    ((s.hasRowWithAutoHeight = true
        ∧ Watermark.ltIndex s.lastMeasuredRowIndex index = true) →
      (setLastMeasuredRowIndex index s).lastMeasuredRowIndex = Watermark.val index)
    ∧ (¬(s.hasRowWithAutoHeight = true
        ∧ Watermark.ltIndex s.lastMeasuredRowIndex index = true) →
      setLastMeasuredRowIndex index s = s)
    ∧ ((hydrateRowsMeta env s).hasRowWithAutoHeight = false →
      (hydrateRowsMeta env s).lastMeasuredRowIndex = Watermark.inf) := by
  refine ⟨?_, ?_, ?_⟩
  · rintro ⟨h1, h2⟩
    simp [setLastMeasuredRowIndex, h1, h2]
  · intro hn
    have hb : ¬(s.hasRowWithAutoHeight
        && Watermark.ltIndex s.lastMeasuredRowIndex index) = true := by
      intro hcon
      exact hn (Bool.and_eq_true_iff.mp hcon)
    simp [setLastMeasuredRowIndex, hb]
  · intro hfalse
    simp only [hydrateRowsMeta] at hfalse ⊢
    rw [hfalse]
    rfl

/-- Witness for C5: the watermark advances from `-1` to `3` while the
auto-height flag is set, and an empty hydration run sets it to `Infinity`. -/
theorem setLastMeasuredRowIndex_monotonic_witness :
    (stateWithAutoFlag.hasRowWithAutoHeight = true
      ∧ Watermark.ltIndex stateWithAutoFlag.lastMeasuredRowIndex 3 = true)
    ∧ (setLastMeasuredRowIndex 3 stateWithAutoFlag).lastMeasuredRowIndex
        = Watermark.val 3
    ∧ ((hydrateRowsMeta envNoRows emptyMetaState).hasRowWithAutoHeight = false
      ∧ (hydrateRowsMeta envNoRows emptyMetaState).lastMeasuredRowIndex
          = Watermark.inf) :=
  ⟨by decide,
   (setLastMeasuredRowIndex_monotonic envNoRows stateWithAutoFlag 3).1 (by decide),
   by decide,
   (setLastMeasuredRowIndex_monotonic envNoRows emptyMetaState 3).2.2 (by decide)⟩

/-- C4: `storeRowHeightMeasurement` leaves everything unchanged and schedules
nothing when the row id is absent from the cache or the entry is not flagged
auto height; otherwise it clears `needsFirstMeasurement`, stores the
measurement under the `base` + capitalized position component, and schedules
the debounced recomputation exactly when the stored value differed from the
measured one. -/
theorem storeMeasuredRowHeight_spec (s : MetaState) (id : RowId) (height : Int)
    (position : String) :
    (Assoc.get s.lookup id = none →
      storeMeasuredRowHeight id height position s = (s, false))
    ∧ (∀ e, Assoc.get s.lookup id = some e → e.autoHeight = false →
      storeMeasuredRowHeight id height position s = (s, false))
    ∧ (∀ e, Assoc.get s.lookup id = some e → e.autoHeight = true →
      (storeMeasuredRowHeight id height position s).1
          = { s with
              lookup :=
                Assoc.set s.lookup id
                  ({ e with
                      needsFirstMeasurement := false,
                      sizes :=
                        Assoc.set e.sizes ("base" ++ capitalize position) height }) }
      ∧ ((storeMeasuredRowHeight id height position s).2 = true
          ↔ Assoc.get e.sizes ("base" ++ capitalize position) ≠ some height)) := by
  refine ⟨?_, ?_, ?_⟩
  · intro habs
    simp [storeMeasuredRowHeight, habs]
  · intro e he hauto
    simp [storeMeasuredRowHeight, he, hauto]
  · intro e he hauto
    constructor
    · simp [storeMeasuredRowHeight, he, hauto]
    · simp [storeMeasuredRowHeight, he, hauto]

/-- Witness for C4: measuring an auto-height row stores the value under
`baseCenter`, clears `needsFirstMeasurement`, and schedules the debounced
recomputation because the stored value differed; measuring a non-auto row is
a no-op. -/
theorem storeMeasuredRowHeight_spec_witness :
    Assoc.get stateWithAutoRow0.lookup 0
        = some { isResized := false, sizes := [("baseCenter", 50)],
                 autoHeight := true, needsFirstMeasurement := true }
    ∧ ((storeMeasuredRowHeight 0 80 "center" stateWithAutoRow0).1
        = { stateWithAutoRow0 with
            lookup :=
              Assoc.set stateWithAutoRow0.lookup 0
                ({ ({ isResized := false, sizes := [("baseCenter", 50)],
                      autoHeight := true, needsFirstMeasurement := true } : RowHeightEntry) with
                    needsFirstMeasurement := false,
                    sizes :=
                      Assoc.set [("baseCenter", 50)] ("base" ++ capitalize "center") 80 }) }
      ∧ ((storeMeasuredRowHeight 0 80 "center" stateWithAutoRow0).2 = true
          ↔ Assoc.get [("baseCenter", (50:Int))] ("base" ++ capitalize "center")
              ≠ some 80))
    ∧ storeMeasuredRowHeight 0 80 "center" stateWithRow0 = (stateWithRow0, false) :=
  ⟨by decide,
   (storeMeasuredRowHeight_spec stateWithAutoRow0 0 80 "center").2.2
     { isResized := false, sizes := [("baseCenter", 50)], autoHeight := true,
       needsFirstMeasurement := true } (by decide) rfl,
   (storeMeasuredRowHeight_spec stateWithRow0 0 80 "center").2.1
     { isResized := false, sizes := [("baseCenter", 10)], autoHeight := false,
       needsFirstMeasurement := false } (by decide) rfl⟩

theorem calculateRowProcessedSizes_frozen (env : Env)
    (Hbc : ∀ f ∈ env.processors, ∀ sz i,
      Assoc.get (f sz i) "baseCenter" = Assoc.get sz "baseCenter")
    (e : RowHeightEntry) (id : RowId) (h : Int)
    (hres : e.isResized = true) (hbc : Assoc.get e.sizes "baseCenter" = some h) :
    (calculateRowProcessedSizes env (some e) id).2.1.isResized = true
    ∧ Assoc.get (calculateRowProcessedSizes env (some e) id).2.1.sizes "baseCenter"
        = some h := by
  have hr : (computeBaseRowHeight env e id).baseRowHeight = h := by
    simp [computeBaseRowHeight, hres, hbc]
  constructor
  · simp [calculateRowProcessedSizes, entryOrInit_some, hres]
  · simp only [calculateRowProcessedSizes, entryOrInit_some]
    rw [applyRowHeightProcessors_get_baseCenter env.processors Hbc,
      get_buildInitialHeights_baseCenter, hr]

theorem frozen_set_step (env : Env)
    (Hbc : ∀ f ∈ env.processors, ∀ sz i,
      Assoc.get (f sz i) "baseCenter" = Assoc.get sz "baseCenter")
    (id : RowId) (h : Int) (L : Lookup) (r : RowId) (hf : BaseCenterFrozen id h L) :
    BaseCenterFrozen id h
      (Assoc.set L r (calculateRowProcessedSizes env (Assoc.get L r) r).2.1) := by
  by_cases hr : r = id
  · subst hr
    obtain ⟨e, he, hres, hbc⟩ := hf
    have hcalc : calculateRowProcessedSizes env (Assoc.get L r) r
        = calculateRowProcessedSizes env (some e) r := by rw [he]
    obtain ⟨h1, h2⟩ := calculateRowProcessedSizes_frozen env Hbc e r h hres hbc
    refine ⟨(calculateRowProcessedSizes env (Assoc.get L r) r).2.1, Assoc.get_set_self _ _ _,
      ?_, ?_⟩
    · rw [hcalc]; exact h1
    · rw [hcalc]; exact h2
  · obtain ⟨e, he, hres, hbc⟩ := hf
    exact ⟨e, by rw [Assoc.get_set_ne _ _ _ _ hr]; exact he, hres, hbc⟩

theorem processVisibleRows_frozen (env : Env)
    (Hbc : ∀ f ∈ env.processors, ∀ sz i,
      Assoc.get (f sz i) "baseCenter" = Assoc.get sz "baseCenter")
    (id : RowId) (h : Int) (rows : List RowId) :
    ∀ (L : Lookup) (a : Bool) (acc : Int), BaseCenterFrozen id h L →
      BaseCenterFrozen id h (processVisibleRows env rows L a acc).lookup := by
  induction rows with
  | nil => intro L a acc hf; exact hf
  | cons r rs ih =>
    intro L a acc hf
    simp only [processVisibleRows]
    exact ih _ _ _ (frozen_set_step env Hbc id h L r hf)

theorem processPinnedRows_frozen (env : Env)
    (Hbc : ∀ f ∈ env.processors, ∀ sz i,
      Assoc.get (f sz i) "baseCenter" = Assoc.get sz "baseCenter")
    (id : RowId) (h : Int) (rows : List RowId) :
    ∀ (L : Lookup) (a : Bool), BaseCenterFrozen id h L →
      BaseCenterFrozen id h (processPinnedRows env rows L a).1 := by
  induction rows with
  | nil => intro L a hf; exact hf
  | cons r rs ih =>
    intro L a hf
    simp only [processPinnedRows]
    exact ih _ _ (frozen_set_step env Hbc id h L r hf)

theorem hydrateRowsMeta_frozen (env : Env)
    (Hbc : ∀ f ∈ env.processors, ∀ sz i,
      Assoc.get (f sz i) "baseCenter" = Assoc.get sz "baseCenter")
    (id : RowId) (h : Int) (s : MetaState) (hf : BaseCenterFrozen id h s.lookup) :
    BaseCenterFrozen id h (hydrateRowsMeta env s).lookup := by
  exact processPinnedRows_frozen env Hbc id h env.pinnedBottom _ _
    (processPinnedRows_frozen env Hbc id h env.pinnedTop _ _
      (processVisibleRows_frozen env Hbc id h env.visibleRows s.lookup false 0 hf))

theorem hydrateRowsMeta_iterate_frozen (env : Env)
    (Hbc : ∀ f ∈ env.processors, ∀ sz i,
      Assoc.get (f sz i) "baseCenter" = Assoc.get sz "baseCenter")
    (id : RowId) (h : Int) (n : Nat) (s : MetaState) (hf : BaseCenterFrozen id h s.lookup) :
    BaseCenterFrozen id h ((hydrateRowsMeta env)^[n] s).lookup := by
  induction n generalizing s with
  | zero => exact hf
  | succ m ih =>
    rw [Function.iterate_succ_apply]
    exact ih _ (hydrateRowsMeta_frozen env Hbc id h s hf)

/-- C3 (amended): for a row id present in the height cache, after
`setRowHeight(id, h)` every subsequent `hydrateRowsMeta` run leaves the row
marked resized with `baseCenter` equal to `h`, even if the height-provider
callback would return a different value — provided every registered
`rowHeight` processor leaves the `baseCenter` component of its input unchanged
(the counterexample shows a processor that rewrites `baseCenter` overwrites
the resized value, because the pipe output is stored as the row's sizes). -/
theorem setRowHeight_freezes_baseCenter (env : Env) (id : RowId) (h : Int)
    (s : MetaState) (n : Nat)
    (Hbc : ∀ f ∈ env.processors, ∀ sz i,
      Assoc.get (f sz i) "baseCenter" = Assoc.get sz "baseCenter")
    (hpres : (Assoc.get s.lookup id).isSome = true) :
    ((setRowHeight env id h s).map (fun s1 =>
        (Assoc.get ((hydrateRowsMeta env)^[n] s1).lookup id).map
          (fun e => (e.isResized, Assoc.get e.sizes "baseCenter"))))
      = some (some (true, some h)) := by
  obtain ⟨e0, he0⟩ := Option.isSome_iff_exists.mp hpres
  simp only [setRowHeight, he0, Option.map_some']
  have hfroz : BaseCenterFrozen id h (Assoc.set s.lookup id
      { isResized := true, sizes := Assoc.set e0.sizes "baseCenter" h,
        autoHeight := e0.autoHeight, needsFirstMeasurement := false }) :=
    ⟨_, Assoc.get_set_self _ _ _, rfl, Assoc.get_set_self _ _ _⟩
  have hfroz2 := hydrateRowsMeta_iterate_frozen env Hbc id h n
    (hydrateRowsMeta env (MetaState.mk (Assoc.set s.lookup id
        { isResized := true, sizes := Assoc.set e0.sizes "baseCenter" h,
          autoHeight := e0.autoHeight, needsFirstMeasurement := false })
      s.hasRowWithAutoHeight s.lastMeasuredRowIndex s.positions
      s.currentPageTotalHeight))
    (hydrateRowsMeta_frozen env Hbc id h
      (MetaState.mk (Assoc.set s.lookup id
        { isResized := true, sizes := Assoc.set e0.sizes "baseCenter" h,
          autoHeight := e0.autoHeight, needsFirstMeasurement := false })
        s.hasRowWithAutoHeight s.lastMeasuredRowIndex s.positions
        s.currentPageTotalHeight) hfroz)
  obtain ⟨e1, he1, hres1, hbc1⟩ := hfroz2
  rw [he1, Option.map_some', hres1, hbc1]

/-- Counterexample for C3 as stated: with a registered `rowHeight` processor
that rewrites `baseCenter` to `999`, resizing row `0` to height `50` and
running `hydrateRowsMeta` again leaves `baseCenter` at `999`, not `50`. -/
theorem setRowHeight_freezes_baseCenter_counterexample :
    ((setRowHeight envBaseCenterProcessor 0 50 stateWithRow0).map (fun s1 =>
        (Assoc.get (hydrateRowsMeta envBaseCenterProcessor s1).lookup 0).map
          (fun e => Assoc.get e.sizes "baseCenter")))
      = some (some (some 999))
    ∧ ((setRowHeight envBaseCenterProcessor 0 50 stateWithRow0).map (fun s1 =>
        (Assoc.get (hydrateRowsMeta envBaseCenterProcessor s1).lookup 0).map
          (fun e => Assoc.get e.sizes "baseCenter")))
      ≠ some (some (some 50)) := by
  exact ⟨by decide, by decide⟩

/-- Witness for C3 (amended) with no registered processors. -/
theorem setRowHeight_freezes_baseCenter_witness :
    (∀ f ∈ envOneRow.processors, ∀ sz i,
      Assoc.get (f sz i) "baseCenter" = Assoc.get sz "baseCenter")
    ∧ (Assoc.get stateWithRow0.lookup 0).isSome = true
    ∧ ((setRowHeight envOneRow 0 50 stateWithRow0).map (fun s1 =>
        (Assoc.get ((hydrateRowsMeta envOneRow)^[1] s1).lookup 0).map
          (fun e => (e.isResized, Assoc.get e.sizes "baseCenter"))))
      = some (some (true, some 50)) :=
  ⟨by intro f hf; simp [envOneRow] at hf,
   by decide,
   setRowHeight_freezes_baseCenter envOneRow 0 50 stateWithRow0 1
     (by intro f hf; simp [envOneRow] at hf) (by decide)⟩

theorem Assoc.mem_set {κ β : Type} [DecidableEq κ] (l : List (κ × β)) (k : κ) (v : β)
    (kv : κ × β) (h : kv ∈ Assoc.set l k v) : kv ∈ l ∨ kv = (k, v) := by
  unfold Assoc.set at h
  split at h
  · obtain ⟨kv', hkv', heq⟩ := List.mem_map.mp h
    by_cases hk : kv'.1 = k
    · right
      rw [← heq, if_pos hk]
    · left
      rw [← heq, if_neg hk]
      exact hkv'
  · rcases List.mem_append.mp h with h1 | h1
    · left; exact h1
    · right; simpa using h1

theorem exportedColDefDimensions_no_inf (c : ExportColDef) :
    ∀ pv ∈ exportedColDefDimensions c, pv.2 ≠ some ExtNum.inf := by
  have aux : ∀ (props : List String)
      (acc : List (String × Option ExtNum)),
      (∀ pv ∈ acc, pv.2 ≠ some ExtNum.inf) →
      ∀ pv ∈ props.foldl
        (fun acc propertyName =>
          let propertyValue := Assoc.get c.dims propertyName
          let propertyValue :=
            if propertyValue = some ExtNum.inf then some (ExtNum.fin (-1))
            else propertyValue
          Assoc.set acc propertyName propertyValue)
        acc, pv.2 ≠ some ExtNum.inf := by
    intro props
    induction props with
    | nil => intro acc hacc pv hpv; exact hacc pv hpv
    | cons p rest ih =>
      intro acc hacc pv hpv
      refine ih _ ?_ pv hpv
      intro pv' hpv'
      rcases Assoc.mem_set acc p _ pv' hpv' with hin | heq
      · exact hacc pv' hin
      · rw [heq]
        by_cases hv : Assoc.get c.dims p = some ExtNum.inf
        · simp [hv]
        · simp only [if_neg hv]
          exact hv
  intro pv hpv
  exact aux COLUMNS_DIMENSION_PROPERTIES [] (by intro pv' h; simp at h) pv hpv

theorem exportedDimensions_cons (init : List (String × List (String × Option ExtNum)))
    (c : ExportColDef) (rest : List ExportColDef) :
    exportedDimensions init (c :: rest)
      = exportedDimensions
          (if c.hasBeenResized then Assoc.set init c.field (exportedColDefDimensions c)
           else init)
          rest := rfl

theorem exportedDimensions_cons_resized
    (init : List (String × List (String × Option ExtNum))) (c : ExportColDef)
    (rest : List ExportColDef) (hc : c.hasBeenResized = true) :
    exportedDimensions init (c :: rest)
      = exportedDimensions (Assoc.set init c.field (exportedColDefDimensions c)) rest := by
  rw [exportedDimensions_cons, if_pos hc]

theorem exportedDimensions_cons_not_resized
    (init : List (String × List (String × Option ExtNum))) (c : ExportColDef)
    (rest : List ExportColDef) (hc : c.hasBeenResized = false) :
    exportedDimensions init (c :: rest) = exportedDimensions init rest := by
  rw [exportedDimensions_cons, if_neg]
  rw [hc]
  exact Bool.false_ne_true

theorem exportedDimensions_of_none_resized (cols : List ExportColDef) :
    ∀ (init : List (String × List (String × Option ExtNum))),
      (∀ c ∈ cols, c.hasBeenResized = false) →
      exportedDimensions init cols = init := by
  induction cols with
  | nil => intro init _; rfl
  | cons c rest ih =>
    intro init hall
    rw [exportedDimensions_cons_not_resized init c rest (hall c (List.mem_cons_self c rest))]
    exact ih init (fun c' hc' => hall c' (List.mem_cons_of_mem c hc'))

theorem exportedDimensions_get_mono (cols : List ExportColDef) :
    ∀ (init : List (String × List (String × Option ExtNum))) (f : String),
      Assoc.get init f ≠ none →
      Assoc.get (exportedDimensions init cols) f ≠ none := by
  induction cols with
  | nil => intro init f h; exact h
  | cons c rest ih =>
    intro init f h
    by_cases hc : c.hasBeenResized = true
    · rw [exportedDimensions_cons_resized init c rest hc]
      refine ih _ f ?_
      by_cases hf : c.field = f
      · subst hf
        rw [Assoc.get_set_self]
        exact Option.some_ne_none _
      · rw [Assoc.get_set_ne _ _ _ _ hf]
        exact h
    · simp only [Bool.not_eq_true] at hc
      rw [exportedDimensions_cons_not_resized init c rest hc]
      exact ih init f h

theorem exportedDimensions_get_resized (cols : List ExportColDef) :
    ∀ (init : List (String × List (String × Option ExtNum))) (c : ExportColDef),
      c ∈ cols → c.hasBeenResized = true →
      Assoc.get (exportedDimensions init cols) c.field ≠ none := by
  induction cols with
  | nil => intro init c hc; exact absurd hc (List.not_mem_nil c)
  | cons c0 rest ih =>
    intro init c hc hres
    rcases List.mem_cons.mp hc with heq | hmem
    · subst heq
      rw [exportedDimensions_cons_resized init c rest hres]
      refine exportedDimensions_get_mono rest _ c.field ?_
      rw [Assoc.get_set_self]
      exact Option.some_ne_none _
    · by_cases hc0 : c0.hasBeenResized = true
      · rw [exportedDimensions_cons_resized init c0 rest hc0]
        exact ih _ c hmem hres
      · simp only [Bool.not_eq_true] at hc0
        rw [exportedDimensions_cons_not_resized init c0 rest hc0]
        exact ih init c hmem hres

theorem exportedDimensions_get_source (cols : List ExportColDef) :
    ∀ (init : List (String × List (String × Option ExtNum))) (f : String),
      Assoc.get (exportedDimensions init cols) f ≠ none →
      Assoc.get init f ≠ none
        ∨ ∃ c ∈ cols, c.hasBeenResized = true ∧ c.field = f := by
  induction cols with
  | nil => intro init f h; exact Or.inl h
  | cons c0 rest ih =>
    intro init f h
    by_cases hc0 : c0.hasBeenResized = true
    · rw [exportedDimensions_cons_resized init c0 rest hc0] at h
      rcases ih _ f h with hinit | ⟨c, hc, hcr, hcf⟩
      · by_cases hf : c0.field = f
        · exact Or.inr ⟨c0, List.mem_cons_self c0 rest, hc0, hf⟩
        · rw [Assoc.get_set_ne _ _ _ _ hf] at hinit
          exact Or.inl hinit
      · exact Or.inr ⟨c, List.mem_cons_of_mem c0 hc, hcr, hcf⟩
    · simp only [Bool.not_eq_true] at hc0
      rw [exportedDimensions_cons_not_resized init c0 rest hc0] at h
      rcases ih init f h with hinit | ⟨c, hc, hcr, hcf⟩
      · exact Or.inl hinit
      · exact Or.inr ⟨c, List.mem_cons_of_mem c0 hc, hcr, hcf⟩

theorem exportedDimensions_no_inf (cols : List ExportColDef) :
    ∀ (init : List (String × List (String × Option ExtNum))),
      (∀ kv ∈ init, ∀ pv ∈ kv.2, pv.2 ≠ some ExtNum.inf) →
      ∀ kv ∈ exportedDimensions init cols, ∀ pv ∈ kv.2, pv.2 ≠ some ExtNum.inf := by
  induction cols with
  | nil => intro init hinit kv hkv; exact hinit kv hkv
  | cons c0 rest ih =>
    intro init hinit kv hkv
    by_cases hc0 : c0.hasBeenResized = true
    · rw [exportedDimensions_cons_resized init c0 rest hc0] at hkv
      refine ih (Assoc.set init c0.field (exportedColDefDimensions c0)) ?_ kv hkv
      intro kv' hkv' pv hpv
      rcases Assoc.mem_set init c0.field _ kv' hkv' with hin | heq
      · exact hinit kv' hin pv hpv
      · rw [heq] at hpv
        exact exportedColDefDimensions_no_inf c0 pv hpv
    · simp only [Bool.not_eq_true] at hc0
      rw [exportedDimensions_cons_not_resized init c0 rest hc0] at hkv
      exact ih init hinit kv hkv

theorem exportedColDefDimensions_get (c : ExportColDef) (p : String)
    (hp : p ∈ COLUMNS_DIMENSION_PROPERTIES) :
    Assoc.get (exportedColDefDimensions c) p
      = some (if Assoc.get c.dims p = some ExtNum.inf then some (ExtNum.fin (-1))
              else Assoc.get c.dims p) := by
  have aux2 : ∀ (props : List String) (acc : List (String × Option ExtNum)),
      (∀ k ∈ props, k ≠ p) →
      Assoc.get (props.foldl
        (fun acc propertyName =>
          let propertyValue := Assoc.get c.dims propertyName
          let propertyValue :=
            if propertyValue = some ExtNum.inf then some (ExtNum.fin (-1))
            else propertyValue
          Assoc.set acc propertyName propertyValue)
        acc) p = Assoc.get acc p := by
    intro props
    induction props with
    | nil => intro acc _; rfl
    | cons k rest ih =>
      intro acc hne
      have hk : k ≠ p := hne k (List.mem_cons_self k rest)
      have hrest : ∀ k' ∈ rest, k' ≠ p :=
        fun k' hk' => hne k' (List.mem_cons_of_mem k hk')
      show Assoc.get (rest.foldl _ (Assoc.set acc k _)) p = Assoc.get acc p
      rw [ih _ hrest, Assoc.get_set_ne _ _ _ _ hk]
  have aux : ∀ (props : List String) (acc : List (String × Option ExtNum)),
      p ∈ props →
      Assoc.get (props.foldl
        (fun acc propertyName =>
          let propertyValue := Assoc.get c.dims propertyName
          let propertyValue :=
            if propertyValue = some ExtNum.inf then some (ExtNum.fin (-1))
            else propertyValue
          Assoc.set acc propertyName propertyValue)
        acc) p
      = some (if Assoc.get c.dims p = some ExtNum.inf then some (ExtNum.fin (-1))
              else Assoc.get c.dims p) := by
    intro props
    induction props with
    | nil => intro acc hmem; exact absurd hmem (List.not_mem_nil p)
    | cons k rest ih =>
      intro acc hmem
      by_cases hr : p ∈ rest
      · exact ih _ hr
      · have hk : k = p := by
          rcases List.mem_cons.mp hmem with h | h
          · exact h.symm
          · exact absurd h hr
        subst hk
        have hrest : ∀ k' ∈ rest, k' ≠ k :=
          fun k' hk' heq => hr (heq ▸ hk')
        show Assoc.get (rest.foldl _ (Assoc.set acc k _)) k = _
        rw [aux2 rest _ hrest, Assoc.get_set_self]
  exact aux COLUMNS_DIMENSION_PROPERTIES [] hp

theorem exportedDimensions_get_eq (cols : List ExportColDef) :
    ∀ (init : List (String × List (String × Option ExtNum))) (f : String)
      (d : List (String × Option ExtNum)),
      Assoc.get (exportedDimensions init cols) f = some d →
      Assoc.get init f = some d
        ∨ ∃ c ∈ cols, c.hasBeenResized = true ∧ c.field = f
            ∧ d = exportedColDefDimensions c := by
  induction cols with
  | nil => intro init f d h; exact Or.inl h
  | cons c0 rest ih =>
    intro init f d h
    by_cases hc0 : c0.hasBeenResized = true
    · rw [exportedDimensions_cons_resized init c0 rest hc0] at h
      rcases ih _ f d h with hinit | ⟨c, hc, hcr, hcf, hcd⟩
      · by_cases hf : c0.field = f
        · subst hf
          rw [Assoc.get_set_self] at hinit
          exact Or.inr ⟨c0, List.mem_cons_self c0 rest, hc0, rfl,
            (Option.some_inj.mp hinit).symm⟩
        · rw [Assoc.get_set_ne _ _ _ _ hf] at hinit
          exact Or.inl hinit
      · exact Or.inr ⟨c, List.mem_cons_of_mem c0 hc, hcr, hcf, hcd⟩
    · simp only [Bool.not_eq_true] at hc0
      rw [exportedDimensions_cons_not_resized init c0 rest hc0] at h
      rcases ih init f d h with hinit | ⟨c, hc, hcr, hcf, hcd⟩
      · exact Or.inl hinit
      · exact Or.inr ⟨c, List.mem_cons_of_mem c0 hc, hcr, hcf, hcd⟩

/-- C6 (amended): the state-export processor always emits the ordered fields;
it emits the column visibility model exactly when `exportOnlyDirtyModels` is
off, or the model is controlled, or it was initialized non-empty, or it is
currently non-empty (so it is not emitted in the dirty-only scenario with no
overrides); it emits a dimensions record only for columns flagged
`hasBeenResized`, every column so flagged being present, every stored entry
being the exported dimensions of such a column, in which each dimension
property carries the column's value except that an `Infinity` value is
replaced by the sentinel `-1` (an `undefined` property stays `undefined`); and
the dirty-only / no-overrides / no-resized-columns scenario yields a snapshot
with `orderedFields` only. -/
theorem stateExportPreProcessing_spec (exportOnlyDirtyModels : Bool)
    (propsColumnVisibilityModel initialStateColumnVisibilityModel :
      Option (List (String × Bool)))
    (columnVisibilityModel : List (String × Bool)) (orderedFields : List String)
    (columns : List ExportColDef) :
    (stateExportPreProcessing exportOnlyDirtyModels propsColumnVisibilityModel
        initialStateColumnVisibilityModel columnVisibilityModel orderedFields
        columns).orderedFields = some orderedFields
    ∧ (stateExportPreProcessing exportOnlyDirtyModels propsColumnVisibilityModel
        initialStateColumnVisibilityModel columnVisibilityModel orderedFields
        columns).columnVisibilityModel
      = (if (!exportOnlyDirtyModels
            || propsColumnVisibilityModel.isSome
            || decide (0 < (initialStateColumnVisibilityModel.getD []).length)
            || decide (0 < columnVisibilityModel.length)) = true
         then some columnVisibilityModel else none)
    ∧ ((∀ c ∈ columns, c.hasBeenResized = false) →
      (stateExportPreProcessing exportOnlyDirtyModels propsColumnVisibilityModel
        initialStateColumnVisibilityModel columnVisibilityModel orderedFields
        columns).dimensions = none)
    ∧ (∀ c ∈ columns, c.hasBeenResized = true →
      ∃ dims, (stateExportPreProcessing exportOnlyDirtyModels propsColumnVisibilityModel
          initialStateColumnVisibilityModel columnVisibilityModel orderedFields
          columns).dimensions = some dims
        ∧ Assoc.get dims c.field ≠ none)
    ∧ (∀ dims, (stateExportPreProcessing exportOnlyDirtyModels propsColumnVisibilityModel
          initialStateColumnVisibilityModel columnVisibilityModel orderedFields
          columns).dimensions = some dims →
      (∀ f, Assoc.get dims f ≠ none →
        ∃ c ∈ columns, c.hasBeenResized = true ∧ c.field = f)
      ∧ (∀ f d, Assoc.get dims f = some d →
        ∃ c ∈ columns, c.hasBeenResized = true ∧ c.field = f
          ∧ d = exportedColDefDimensions c)
      ∧ (∀ kv ∈ dims, ∀ pv ∈ kv.2, pv.2 ≠ some ExtNum.inf))
    ∧ (∀ c : ExportColDef, ∀ p ∈ COLUMNS_DIMENSION_PROPERTIES,
      Assoc.get (exportedColDefDimensions c) p
        = some (if Assoc.get c.dims p = some ExtNum.inf then some (ExtNum.fin (-1))
                else Assoc.get c.dims p)) := by
  refine ⟨rfl, rfl, ?_, ?_, ?_, ?_⟩
  · intro hnone
    show (if 0 < (exportedDimensions [] columns).length
        then some (exportedDimensions [] columns) else none) = none
    rw [exportedDimensions_of_none_resized columns [] hnone]
    rfl
  · intro c hc hres
    have hget := exportedDimensions_get_resized columns [] c hc hres
    have hne : exportedDimensions [] columns ≠ [] := by
      intro hcon
      rw [hcon] at hget
      exact hget rfl
    have hlen : 0 < (exportedDimensions [] columns).length :=
      List.length_pos.mpr hne
    refine ⟨exportedDimensions [] columns, ?_, hget⟩
    show (if 0 < (exportedDimensions [] columns).length
        then some (exportedDimensions [] columns) else none)
      = some (exportedDimensions [] columns)
    rw [if_pos hlen]
  · intro dims hdims
    have hdims' : dims = exportedDimensions [] columns := by
      revert hdims
      show (if 0 < (exportedDimensions [] columns).length
          then some (exportedDimensions [] columns) else none) = some dims → _
      by_cases hlen : 0 < (exportedDimensions [] columns).length
      · rw [if_pos hlen]
        intro h
        exact (Option.some_inj.mp h).symm
      · rw [if_neg hlen]
        intro h
        exact absurd h (Option.noConfusion)
    subst hdims'
    refine ⟨?_, ?_, ?_⟩
    · intro f hf
      rcases exportedDimensions_get_source columns [] f hf with hinit | hsrc
      · exact absurd rfl hinit
      · exact hsrc
    · intro f d hd
      rcases exportedDimensions_get_eq columns [] f d hd with hinit | hsrc
      · exact absurd hinit (by simp [Assoc.get])
      · exact hsrc
    · exact exportedDimensions_no_inf columns []
        (by intro kv hkv; simp at hkv)
  · intro c p hp
    exact exportedColDefDimensions_get c p hp

/-- Counterexample for C6 as stated: exporting with `exportOnlyDirtyModels`
set, an uncontrolled and uninitialized visibility model that is currently
empty, and no resized columns emits no `columnVisibilityModel` at all (and no
`dimensions`), refuting that the visibility model is always emitted. -/
theorem stateExportPreProcessing_counterexample :
    stateExportPreProcessing true none none [] ["a"]
        [ExportColDef.mk "a" false [("width", ExtNum.fin 100)]]
      = { columnVisibilityModel := none, orderedFields := some ["a"],
          dimensions := none }
    ∧ (stateExportPreProcessing true none none [] ["a"]
        [ExportColDef.mk "a" false [("width", ExtNum.fin 100)]]).columnVisibilityModel
      = none := by
  exact ⟨by decide, by decide⟩

/-- Witness for C6 (amended): a resized column whose `width` is `Infinity` is
exported, its stored dimensions entry is exactly that column's exported
dimensions, the theorem's value characterization applies at `width`, and the
exported `width` concretely carries the sentinel `-1`. -/
theorem stateExportPreProcessing_spec_witness :
    ((ExportColDef.mk "a" true [("width", ExtNum.inf)])
        ∈ [ExportColDef.mk "a" true [("width", ExtNum.inf)]]
      ∧ (ExportColDef.mk "a" true [("width", ExtNum.inf)]).hasBeenResized = true
      ∧ "width" ∈ COLUMNS_DIMENSION_PROPERTIES
      ∧ Assoc.get (ExportColDef.mk "a" true [("width", ExtNum.inf)]).dims "width"
          = some ExtNum.inf)
    ∧ (stateExportPreProcessing false none none [] ["a"]
        [ExportColDef.mk "a" true [("width", ExtNum.inf)]]).orderedFields = some ["a"]
    ∧ (∃ c ∈ [ExportColDef.mk "a" true [("width", ExtNum.inf)]],
        c.hasBeenResized = true ∧ c.field = "a"
          ∧ exportedColDefDimensions (ExportColDef.mk "a" true [("width", ExtNum.inf)])
              = exportedColDefDimensions c)
    ∧ Assoc.get
        (exportedColDefDimensions (ExportColDef.mk "a" true [("width", ExtNum.inf)]))
        "width"
      = some (if Assoc.get (ExportColDef.mk "a" true [("width", ExtNum.inf)]).dims
              "width" = some ExtNum.inf
            then some (ExtNum.fin (-1))
            else Assoc.get (ExportColDef.mk "a" true [("width", ExtNum.inf)]).dims
              "width")
    ∧ Assoc.get
        (exportedColDefDimensions (ExportColDef.mk "a" true [("width", ExtNum.inf)]))
        "width"
      = some (some (ExtNum.fin (-1))) :=
  ⟨⟨List.mem_cons_self _ _, rfl, by decide, by decide⟩,
   (stateExportPreProcessing_spec false none none [] ["a"]
     [ExportColDef.mk "a" true [("width", ExtNum.inf)]]).1,
   (stateExportPreProcessing_spec false none none [] ["a"]
     [ExportColDef.mk "a" true [("width", ExtNum.inf)]]).2.2.2.2.1
     (exportedDimensions [] [ExportColDef.mk "a" true [("width", ExtNum.inf)]])
     (by decide) |>.2.1 "a"
     (exportedColDefDimensions (ExportColDef.mk "a" true [("width", ExtNum.inf)]))
     (by decide),
   (stateExportPreProcessing_spec false none none [] ["a"]
     [ExportColDef.mk "a" true [("width", ExtNum.inf)]]).2.2.2.2.2
     (ExportColDef.mk "a" true [("width", ExtNum.inf)]) "width" (by decide),
   by decide⟩

/-- C7: the detail-panel `hydrateColumns` processor is idempotent; with the
capability configured it prepends the toggle column exactly once (under the
columns-state invariant that `orderedFields` and `lookup` agree on the toggle
field and `orderedFields` holds it at most once), and with the capability
absent it removes the toggle field from both `orderedFields` and `lookup`, or
leaves the state unchanged when the lookup does not hold it. -/
theorem addToggleColumn_idempotent (b : Bool) (lt : String) (cs : DetailColumnsState) :
    addToggleColumn b lt (addToggleColumn b lt cs) = addToggleColumn b lt cs
    ∧ (b = true →
        (Assoc.get (addToggleColumn b lt cs).lookup
            GRID_DETAIL_PANEL_TOGGLE_FIELD).isSome = true
        ∧ (((Assoc.get cs.lookup GRID_DETAIL_PANEL_TOGGLE_FIELD).isSome = true
              ↔ GRID_DETAIL_PANEL_TOGGLE_FIELD ∈ cs.orderedFields) →
            cs.orderedFields.count GRID_DETAIL_PANEL_TOGGLE_FIELD ≤ 1 →
            (addToggleColumn b lt cs).orderedFields.count
              GRID_DETAIL_PANEL_TOGGLE_FIELD = 1))
    ∧ (b = false →
        ((Assoc.get cs.lookup GRID_DETAIL_PANEL_TOGGLE_FIELD).isSome = true →
          GRID_DETAIL_PANEL_TOGGLE_FIELD ∉ (addToggleColumn b lt cs).orderedFields
          ∧ Assoc.get (addToggleColumn b lt cs).lookup
              GRID_DETAIL_PANEL_TOGGLE_FIELD = none)
        ∧ (Assoc.get cs.lookup GRID_DETAIL_PANEL_TOGGLE_FIELD = none →
          addToggleColumn b lt cs = cs)) := by
  refine ⟨?_, ?_, ?_⟩
  · cases b with
    | false =>
      by_cases hp : (Assoc.get cs.lookup GRID_DETAIL_PANEL_TOGGLE_FIELD).isSome = true
      · have h1 : addToggleColumn false lt cs
            = { lookup := Assoc.eraseKey cs.lookup GRID_DETAIL_PANEL_TOGGLE_FIELD,
                orderedFields := cs.orderedFields.filter
                  (fun field => !decide (field = GRID_DETAIL_PANEL_TOGGLE_FIELD)) } := by
          simp [addToggleColumn, hp]
        rw [h1]
        have h2 : Assoc.get (Assoc.eraseKey cs.lookup GRID_DETAIL_PANEL_TOGGLE_FIELD)
            GRID_DETAIL_PANEL_TOGGLE_FIELD = none := Assoc.get_eraseKey_self _ _
        simp [addToggleColumn, h2]
      · have h1 : addToggleColumn false lt cs = cs := by
          simp [addToggleColumn, hp]
        rw [h1, h1]
    | true =>
      by_cases hp : (Assoc.get cs.lookup GRID_DETAIL_PANEL_TOGGLE_FIELD).isSome = true
      · have h1 : addToggleColumn true lt cs = cs := by
          simp [addToggleColumn, hp]
        rw [h1, h1]
      · have h1 : addToggleColumn true lt cs
            = { orderedFields := GRID_DETAIL_PANEL_TOGGLE_FIELD :: cs.orderedFields,
                lookup := Assoc.set cs.lookup GRID_DETAIL_PANEL_TOGGLE_FIELD
                  { headerName := lt } } := by
          simp [addToggleColumn, hp]
        rw [h1]
        have h2 : (Assoc.get (Assoc.set cs.lookup GRID_DETAIL_PANEL_TOGGLE_FIELD
            { headerName := lt }) GRID_DETAIL_PANEL_TOGGLE_FIELD).isSome = true := by
          rw [Assoc.get_set_self]; rfl
        simp [addToggleColumn, h2]
  · rintro rfl
    by_cases hp : (Assoc.get cs.lookup GRID_DETAIL_PANEL_TOGGLE_FIELD).isSome = true
    · have h1 : addToggleColumn true lt cs = cs := by
        simp [addToggleColumn, hp]
      rw [h1]
      refine ⟨hp, ?_⟩
      intro hiff hle
      have hmem : GRID_DETAIL_PANEL_TOGGLE_FIELD ∈ cs.orderedFields := hiff.mp hp
      have hpos : 0 < cs.orderedFields.count GRID_DETAIL_PANEL_TOGGLE_FIELD :=
        List.count_pos_iff.mpr hmem
      omega
    · have h1 : addToggleColumn true lt cs
          = { orderedFields := GRID_DETAIL_PANEL_TOGGLE_FIELD :: cs.orderedFields,
              lookup := Assoc.set cs.lookup GRID_DETAIL_PANEL_TOGGLE_FIELD
                { headerName := lt } } := by
        simp [addToggleColumn, hp]
      rw [h1]
      constructor
      · rw [Assoc.get_set_self]; rfl
      · intro hiff _
        have hnmem : GRID_DETAIL_PANEL_TOGGLE_FIELD ∉ cs.orderedFields := by
          intro hcon
          exact hp (hiff.mpr hcon)
        have hzero : cs.orderedFields.count GRID_DETAIL_PANEL_TOGGLE_FIELD = 0 :=
          List.count_eq_zero.mpr hnmem
        show (GRID_DETAIL_PANEL_TOGGLE_FIELD :: cs.orderedFields).count
          GRID_DETAIL_PANEL_TOGGLE_FIELD = 1
        rw [List.count_cons_self, hzero]
  · rintro rfl
    constructor
    · intro hp
      have h1 : addToggleColumn false lt cs
          = { lookup := Assoc.eraseKey cs.lookup GRID_DETAIL_PANEL_TOGGLE_FIELD,
              orderedFields := cs.orderedFields.filter
                (fun field => !decide (field = GRID_DETAIL_PANEL_TOGGLE_FIELD)) } := by
        simp [addToggleColumn, hp]
      rw [h1]
      constructor
      · intro hcon
        have := List.mem_filter.mp hcon
        simp at this
      · exact Assoc.get_eraseKey_self _ _
    · intro hnone
      simp [addToggleColumn, hnone]

/-- Witness for C7 at a concrete one-column state. -/
theorem addToggleColumn_idempotent_witness :
    ((Assoc.get (DetailColumnsState.mk ["a"] [("a", DetailColDef.mk "A")]).lookup
        GRID_DETAIL_PANEL_TOGGLE_FIELD).isSome = true
      ↔ GRID_DETAIL_PANEL_TOGGLE_FIELD
          ∈ (DetailColumnsState.mk ["a"] [("a", DetailColDef.mk "A")]).orderedFields)
    ∧ (DetailColumnsState.mk ["a"] [("a", DetailColDef.mk "A")]).orderedFields.count
        GRID_DETAIL_PANEL_TOGGLE_FIELD ≤ 1
    ∧ addToggleColumn true "t"
        (addToggleColumn true "t" (DetailColumnsState.mk ["a"] [("a", DetailColDef.mk "A")]))
      = addToggleColumn true "t" (DetailColumnsState.mk ["a"] [("a", DetailColDef.mk "A")])
    ∧ (addToggleColumn true "t"
        (DetailColumnsState.mk ["a"] [("a", DetailColDef.mk "A")])).orderedFields.count
        GRID_DETAIL_PANEL_TOGGLE_FIELD = 1 :=
  ⟨by decide, by decide,
   (addToggleColumn_idempotent true "t"
     (DetailColumnsState.mk ["a"] [("a", DetailColDef.mk "A")])).1,
   ((addToggleColumn_idempotent true "t"
     (DetailColumnsState.mk ["a"] [("a", DetailColDef.mk "A")])).2.1 rfl).2
     (by decide) (by decide)⟩
